import Mathlib

/-!
# Verification of the HCP interaction normalization pipeline

Shallow embedding of the repository's core logic:
`utils/dates.py` (the `add_yrmo` helper and the YRMO retention filter) and
the four pipeline normalizers (`pipelines/call.py`, `pipelines/edetail.py`,
`pipelines/events.py`, `pipelines/vae.py`) plus the merge stage
(`pipelines/hco_promotion.py`).

Tables are modelled as lists of rows.  A pandas cell is modelled by `Value`:
a string, a parsed datetime, or the null/NaN/NaT marker.  Exceptions raised
by the Python code are modelled by functions returning `Option` (`none` is a
raised exception).
-/

set_option maxHeartbeats 1000000

namespace MrProject

/-- A pandas cell: a string, a parsed datetime (date-resolution), or the
null marker (covers `None`, `NaN` and `NaT`, all of which satisfy
`pd.isna`).  The data flowing through these pipelines consists of strings
and of datetimes produced by `pd.to_datetime`. -/
inductive Value where
  | null : Value
  | str : String → Value
  | date : Nat → Nat → Nat → Value
deriving DecidableEq, Repr

/-- A calendar date (year, month, day). -/
structure Date where
  year : Nat
  month : Nat
  day : Nat
deriving DecidableEq, Repr

/-- Number of days in a month (proleptic Gregorian calendar), used to decide
which `YYYY-MM-DD` strings denote real dates. -/
def daysInMonth (y m : Nat) : Nat :=
  if m = 2 then
    if y % 4 = 0 ∧ (y % 100 ≠ 0 ∨ y % 400 = 0) then 29 else 28
  else if m = 4 ∨ m = 6 ∨ m = 9 ∨ m = 11 then 30
  else 31

/-- The character for a decimal digit `n < 10`. -/
def digitChar (n : Nat) : Char := Char.ofNat (48 + n)

/-- Numeric value of a decimal digit character. -/
def charDigit (c : Char) : Nat := c.toNat - 48

/-- Parse a string of the exact shape `YYYY-MM-DD` (all digits, a real
calendar date) into a `Date`.  Used to model `pd.to_datetime` below. -/
def parseISODate (s : String) : Option Date :=
  match s.data with
  | [y1, y2, y3, y4, '-', m1, m2, '-', d1, d2] =>
    if y1.isDigit ∧ y2.isDigit ∧ y3.isDigit ∧ y4.isDigit ∧
        m1.isDigit ∧ m2.isDigit ∧ d1.isDigit ∧ d2.isDigit then
      let y := charDigit y1 * 1000 + charDigit y2 * 100 + charDigit y3 * 10 + charDigit y4
      let m := charDigit m1 * 10 + charDigit m2
      let d := charDigit d1 * 10 + charDigit d2
      if 1 ≤ m ∧ m ≤ 12 ∧ 1 ≤ d ∧ d ≤ daysInMonth y m then
        some ⟨y, m, d⟩
      else none
    else none
  | _ => none

/-- Model of `pd.to_datetime(value, errors="coerce")` on a single cell:
nulls coerce to `NaT` (`none`), already-parsed datetimes pass through, and
strings are parsed.  String parsing is modelled on ISO `YYYY-MM-DD` inputs
(the only string format these tables carry); every other string is treated
as unparseable and coerces to `NaT`. -/
def to_datetime (v : Value) : Option Date :=
  match v with
  | Value.null => none
  | Value.date y m d => some ⟨y, m, d⟩
  | Value.str s => parseISODate s

/-- Column-level `pd.to_datetime(..., errors="coerce")`: the resulting cell
is a datetime or the `NaT` null marker. -/
def to_datetime_value (v : Value) : Value :=
  match to_datetime v with
  | some d => Value.date d.year d.month d.day
  | none => Value.null

/-- The four decimal digit characters of `n` (for `n ≤ 9999`), most
significant first. -/
def pad4chars (n : Nat) : List Char :=
  [digitChar (n / 1000 % 10), digitChar (n / 100 % 10),
    digitChar (n / 10 % 10), digitChar (n % 10)]

/-- The two decimal digit characters of `n` (for `n ≤ 99`), most
significant first. -/
def pad2chars (n : Nat) : List Char :=
  [digitChar (n / 10 % 10), digitChar (n % 10)]

/-- Zero-padded 4-digit decimal rendering (yields the digits of `n` for
`n ≤ 9999`). -/
def pad4 (n : Nat) : String := ⟨pad4chars n⟩

/-- Zero-padded 2-digit decimal rendering (yields the digits of `n` for
`n ≤ 99`). -/
def pad2 (n : Nat) : String := ⟨pad2chars n⟩

/-- The canonical `"YYYY-MM"` rendering of a year/month pair, as produced by
`pandas.Period(freq="M").__str__` (zero-padded). -/
def fmtYM (y m : Nat) : String := pad4 y ++ "-" ++ pad2 m

/-- The `"YYYY-MM-DD"` rendering of a date, as produced by
`Series.dt.strftime("%Y-%m-%d")`. -/
def fmtYMD (d : Date) : String := pad4 d.year ++ "-" ++ pad2 d.month ++ "-" ++ pad2 d.day

/-- The cell computation of `add_yrmo` (`utils/dates.py` lines 33-35):
`pd.to_datetime(cell, errors="coerce").dt.to_period("M").astype(str)`.
A parseable date becomes its `"YYYY-MM"` truncation; a null or unparseable
date becomes `NaT`, whose `astype(str)` rendering is the **literal string**
`"NaT"`, not a null. -/
def yrmoStr (v : Value) : String :=
  match to_datetime v with
  | some d => fmtYM d.year d.month
  | none => "NaT"

/-- The YRMO cell added by `add_yrmo`: always a string value. -/
def yrmoValue (v : Value) : Value := Value.str (yrmoStr v)

/-- Boolean lexicographic (code-point) comparison of character lists:
Python's `<` on `str`. -/
def charListLtB : List Char → List Char → Bool
  | _, [] => false
  | [], _ :: _ => true
  | a :: as, b :: bs =>
    if a < b then true
    else if b < a then false
    else charListLtB as bs

/-- Boolean lexicographic comparison of strings (Python's `<` on `str`). -/
def strLtB (s t : String) : Bool := charListLtB s.data t.data

/-- Larger of two strings in lexicographic (code-point) order, as computed
by Python's `>` on `str` inside `Series.max()`. -/
def strMax (s t : String) : String := if strLtB s t then t else s

/-- `Series.max()` on an object column (`utils/dates.py` line 58): nulls are
skipped, the remaining strings are compared lexicographically, and the
result is null iff there is no non-null entry.  Non-string non-null cells do
not occur in a YRMO column and are ignored like nulls. -/
def seriesMax : List Value → Value
  | [] => Value.null
  | v :: vs =>
    match v with
    | Value.str s =>
      match seriesMax vs with
      | Value.str t => Value.str (strMax s t)
      | _ => Value.str s
    | _ => seriesMax vs

/-- Model of CPython `datetime.strptime(s, "%Y-%m")` (`utils/dates.py`
line 62): the year is exactly four digits, the month matches the regex
`1[0-2]|0[1-9]|[1-9]` and the whole string must be consumed; on success
returns the year/month pair, on failure returns `none` (a raised
`ValueError`). -/
def strptime_YM (s : String) : Option (Nat × Nat) :=
  match s.data with
  | [y1, y2, y3, y4, d, a, b] =>
    if d = '-' ∧ y1.isDigit ∧ y2.isDigit ∧ y3.isDigit ∧ y4.isDigit then
      let y := charDigit y1 * 1000 + charDigit y2 * 100 + charDigit y3 * 10 + charDigit y4
      if a = '1' ∧ '0' ≤ b ∧ b ≤ '2' then some (y, 10 + charDigit b)
      else if a = '0' ∧ '1' ≤ b ∧ b ≤ '9' then some (y, charDigit b)
      else none
    else none
  | [y1, y2, y3, y4, d, a] =>
    if d = '-' ∧ y1.isDigit ∧ y2.isDigit ∧ y3.isDigit ∧ y4.isDigit ∧ '1' ≤ a ∧ a ≤ '9' then
      some (charDigit y1 * 1000 + charDigit y2 * 100 + charDigit y3 * 10 + charDigit y4,
        charDigit a)
    else none
  | _ => none

/-- Rendering of a year by `datetime.strftime("%Y-%m")` on Linux/glibc:
no zero padding (years ≥ 1000 therefore coincide with `pad4`). -/
def fmtYearNoPad (y : Nat) : String :=
  if y < 10 then ⟨[digitChar y]⟩
  else if y < 100 then ⟨[digitChar (y / 10), digitChar (y % 10)]⟩
  else if y < 1000 then ⟨[digitChar (y / 100), digitChar (y / 10 % 10), digitChar (y % 10)]⟩
  else pad4 y

/-- The row-retention test `df[yrmo_col] >= start_yrmo` (`utils/dates.py`
line 66) on one cell: pandas object-dtype comparisons send null cells to
`False`, and strings compare lexicographically. -/
def valGe (v : Value) (start : String) : Bool :=
  match v with
  | Value.str s => !strLtB s start
  | _ => false

/-- Core of `filter_by_yrmo_retention` (`utils/dates.py` lines 58-66),
generic in the row type with `yrmoOf` reading the `YRMO` column.
`none` models a raised exception: `datetime.strptime` raising on a non-null
unparseable maximum, or the start month falling outside `datetime`'s year
range `1..9999` (`relativedelta` lands on `datetime.replace`, which raises
there).  The window start is `max(YRMO)` minus `months_to_retain - 1`
months (`relativedelta` month arithmetic is floor division by 12), rendered
by `strftime("%Y-%m")`. -/
def filter_core {α : Type} (yrmoOf : α → Value) (rows : List α)
    (months_to_retain : Int) : Option (List α) :=
  match seriesMax (rows.map yrmoOf) with
  | Value.null => some rows
  | Value.date _ _ _ => some rows
  | Value.str maxY =>
    match strptime_YM maxY with
    | none => none
    | some (y, m) =>
      let t : Int := (y : Int) * 12 + ((m : Int) - 1) - (months_to_retain - 1)
      let sy : Int := t / 12
      let sm : Int := t % 12 + 1
      if sy < 1 ∨ 9999 < sy then none
      else
        let start := fmtYearNoPad sy.toNat ++ "-" ++ pad2 sm.toNat
        some (rows.filter (fun r => valGe (yrmoOf r) start))

/-- An untyped dataframe row: an association list from column names to
cells. -/
abbrev Row : Type := List (String × Value)

/-- Read a column of a row; columns absent from the row read as null
(the marker `pd.concat` fills in for columns a source lacks). -/
def Row.get (r : Row) (c : String) : Value :=
  match r.find? (fun p => p.1 = c) with
  | some p => p.2
  | none => Value.null

/-- Write a column of a row: replace it in place when present, append it
otherwise (pandas `df[col] = ...` semantics). -/
def Row.set (r : Row) (c : String) (v : Value) : Row :=
  if r.any (fun p => p.1 = c) then
    r.map (fun p => if p.1 = c then (p.1, v) else p)
  else r ++ [(c, v)]

/-- An untyped dataframe: a column list and a list of rows. -/
structure DataFrame where
  cols : List String
  rows : List Row
deriving DecidableEq, Repr

/-- A well-formed dataframe: every row's keys are exactly the declared
columns, in order. -/
def DataFrame.Wf (df : DataFrame) : Prop :=
  ∀ r ∈ df.rows, r.map Prod.fst = df.cols

/-- `add_yrmo` (`utils/dates.py` lines 22-36): adds (or overwrites) the
`YRMO` column with the `"YYYY-MM"` period rendering of the date column. -/
def add_yrmo (df : DataFrame) (date_col : String) (yrmo_col : String := "YRMO") :
    DataFrame where
  cols := if yrmo_col ∈ df.cols then df.cols else df.cols ++ [yrmo_col]
  rows := df.rows.map (fun r => Row.set r yrmo_col (yrmoValue (Row.get r date_col)))

/-- `filter_by_yrmo_retention` (`utils/dates.py` lines 39-66) on an untyped
dataframe.  An empty table, or one without the `YRMO` column, is returned
unchanged (lines 55-56); otherwise the core filter runs (a null maximum is
also returned unchanged, line 59-60).  `none` models a raised exception. -/
def filter_by_yrmo_retention (df : DataFrame) (months_to_retain : Int := 7)
    (yrmo_col : String := "YRMO") : Option DataFrame :=
  if df.rows.isEmpty ∨ yrmo_col ∉ df.cols then some df
  else
    (filter_core (fun r => Row.get r yrmo_col) df.rows months_to_retain).map
      (fun rs => ⟨df.cols, rs⟩)

/-- The retention-window start as the specification words it: the
`"YYYY-MM"` string `N − 1` months before the month `(y, m)` (month
arithmetic with floor division, rendered zero-padded).  This is the
spec-side description of the window start, to be compared with the
computation inside `filter_core`. -/
def specWindowStart (y m : Nat) (n : Int) : String :=
  fmtYM ((((y : Int) * 12 + ((m : Int) - 1) - (n - 1)) / 12)).toNat
    ((((y : Int) * 12 + ((m : Int) - 1) - (n - 1)) % 12 + 1).toNat)

/-! ## Canonical output schema -/

/-- A canonical output row, the shared shape of every normalizer's output
(`HCP_ID, ACTIVITY_DATE, YRMO, ID, CHANNEL, ACTION`). -/
structure OutRow where
  HCP_ID : Value
  ACTIVITY_DATE : Value
  YRMO : Value
  ID : Value
  CHANNEL : Value
  ACTION : Value
deriving DecidableEq, Repr

/-- Truthiness of a configuration value, as tested by Python's
`if product: ...` guards (JSON `null` arrives as `None` and is modelled by
the absent `Option`; an empty string is falsy). -/
def truthy (v : Value) : Bool :=
  match v with
  | Value.null => false
  | Value.str s => s ≠ ""
  | Value.date _ _ _ => true

/-- `Series.replace` through a mapping (and the scalar form
`Series.replace(old, new)`): a cell equal to a key is replaced by the
mapped value, every other cell passes through unchanged. -/
def replaceVia (mapping : List (String × String)) (v : Value) : Value :=
  match v with
  | Value.str s =>
    match mapping.find? (fun p => p.1 = s) with
    | some p => Value.str p.2
    | none => v
  | _ => v

/-- Python `str()` of a cell, as used by `.astype(str)` and
`str(product_id)` in `pipelines/events.py`: `NaN` renders as `"nan"`. -/
def pyStr (v : Value) : String :=
  match v with
  | Value.null => "nan"
  | Value.str s => s
  | Value.date y m d => fmtYMD ⟨y, m, d⟩ ++ " 00:00:00"

/-! ## Edetail pipeline (`pipelines/edetail.py`) -/

/-- A raw edetail input row: the seven columns consumed by
`_normalize_edetail` (lines 44-54). -/
structure EdetailRow where
  src_systm_cd : Value
  dgtl_dtl_only_id : Value
  action : Value
  activity_date : Value
  customer_id : Value
  product_indication_id : Value
  product_name : Value
deriving DecidableEq, Repr

/-- A normalized edetail row: the renamed columns of line 56-64. -/
structure NormRow where
  CHANNEL : Value
  ID : Value
  ACTION : Value
  ACTIVITY_DATE : Value
  HCP_ID : Value
  INDCTN_ID : Value
  PRODUCT_NM : Value
deriving DecidableEq, Repr

/-- `CHANNEL_MAPPING` (`pipelines/edetail.py` lines 14-23). -/
def CHANNEL_MAPPING : List (String × String) :=
  [("M3", "EMAIL_M3_MR_KUN"),
   ("M3-Quiz", "EMAIL_M3_QUIZ"),
   ("M3-MM", "EMAIL_M3_MM"),
   ("NMO", "EDETAIL_NMO"),
   ("M3-OPD", "EMAIL_M3_OPD"),
   ("CARENET", "EDETAIL_CARENET"),
   ("JSTREAM", "EDETAIL_JSTREAM"),
   ("Medpeer", "EDETAIL_MEDPEER")]

/-- The `activity_date` normalization of `_normalize_edetail` (lines 37-42):
`pd.to_datetime(..., errors="coerce").dt.strftime("%Y-%m-%d")`.  A
parseable date becomes its `"YYYY-MM-DD"` string; `NaT` is rendered by
`.dt.strftime` as a null (`NaN`), not as a string. -/
def dateToYMDStr (v : Value) : Value :=
  match to_datetime v with
  | some d => Value.str (fmtYMD d)
  | none => Value.null

/-- `_normalize_edetail` (`pipelines/edetail.py` lines 26-72): normalize the
date, rename the seven columns, remap `"Sent"` to `"Delivered"` in
`ACTION`, remap `CHANNEL` through `CHANNEL_MAPPING`, and (when the product
name is truthy) keep only rows of that product. -/
def _normalize_edetail (df : List EdetailRow) (product_name : String) : List NormRow :=
  let dated := df.map (fun r => { r with activity_date := dateToYMDStr r.activity_date })
  let renamed : List NormRow := dated.map (fun r =>
    ⟨r.src_systm_cd, r.dgtl_dtl_only_id, r.action, r.activity_date,
      r.customer_id, r.product_indication_id, r.product_name⟩)
  let acted := renamed.map (fun r =>
    { r with ACTION := replaceVia [("Sent", "Delivered")] r.ACTION })
  let channeled := acted.map (fun r =>
    { r with CHANNEL := replaceVia CHANNEL_MAPPING r.CHANNEL })
  if product_name ≠ "" then
    channeled.filter (fun r => r.PRODUCT_NM == Value.str product_name)
  else channeled

/-- A pivot group key: `(ACTIVITY_DATE, HCP_ID, ID, CHANNEL)`. -/
abbrev EKey := Value × Value × Value × Value

/-- The pivot key of a normalized edetail row. -/
def ekey (r : NormRow) : EKey := (r.ACTIVITY_DATE, r.HCP_ID, r.ID, r.CHANNEL)

/-- Whether a pivot key has no null component (`pivot_table` drops groups
with a null key, its default `dropna` grouping semantics). -/
def keyOk (k : EKey) : Bool :=
  k.1 != Value.null && k.2.1 != Value.null && k.2.2.1 != Value.null && k.2.2.2 != Value.null

/-- A total comparison on cells, used to model the sorted group keys that
`pivot_table`/`groupby` produce and `sort_values` row ordering.  Strings
compare lexicographically, datetimes chronologically; nulls and cross-type
comparisons are ordered by an arbitrary fixed rank (they never co-occur in
the key columns these pipelines sort). -/
def valLeB (v w : Value) : Bool :=
  match v, w with
  | Value.str s, Value.str t => !strLtB t s
  | Value.date y m d, Value.date y' m' d' =>
    decide (y < y' ∨ (y = y' ∧ (m < m' ∨ (m = m' ∧ d ≤ d'))))
  | _, _ =>
    match v, w with
    | Value.null, _ => true
    | Value.str _, Value.null => false
    | Value.str _, _ => true
    | Value.date _ _ _, _ => false

/-- Insert an element into a sorted list (insertion-sort step). -/
def insertLe {α : Type} (le : α → α → Bool) (x : α) : List α → List α
  | [] => [x]
  | y :: ys => if le x y then x :: y :: ys else y :: insertLe le x ys

/-- A stable insertion sort, modelling the sorted orders pandas produces
(`groupby`/`pivot_table` key ordering and `sort_values`). -/
def sortLe {α : Type} (le : α → α → Bool) : List α → List α
  | [] => []
  | x :: xs => insertLe le x (sortLe le xs)

/-- Lexicographic comparison of pivot keys. -/
def ekeyLeB (a b : EKey) : Bool :=
  if a.1 ≠ b.1 then valLeB a.1 b.1
  else if a.2.1 ≠ b.2.1 then valLeB a.2.1 b.2.1
  else if a.2.2.1 ≠ b.2.2.1 then valLeB a.2.2.1 b.2.2.1
  else valLeB a.2.2.2 b.2.2.2

/-- One cell of the pivot table: the `aggfunc="count"` tally of a group and
raw action, counting rows of the group whose `ACTION` equals the action and
whose `PRODUCT_NM` (the pivot's value column) is non-null. -/
def countAction (rows : List NormRow) (k : EKey) (a : String) : Nat :=
  (rows.filter (fun r =>
    ekey r == k && r.ACTION == Value.str a && r.PRODUCT_NM != Value.null)).length

/-- The index of the pivot table: the distinct non-null group keys, sorted
(`groupby` sorts keys; sorting then keeping first occurrences yields the
sorted distinct keys). -/
def pivotKeys (rows : List NormRow) : List EKey :=
  (sortLe ekeyLeB ((rows.filter (fun r => keyOk (ekey r))).map ekey)).dedup

/-- A melted row: the pivot key, the melt variable (`ACTION2`, i.e. which
of `EXP`/`ENG1`/`ENG2` produced it) and the derived action string. -/
structure MeltRow where
  key : EKey
  ACTION2 : String
  ACTION : String
deriving DecidableEq, Repr

/-- A builder output row: the columns selected at
`pipelines/edetail.py` lines 120/169 and the `listcol` selection of
line 214. -/
structure BuildRow where
  ACTIVITY_DATE : Value
  HCP_ID : Value
  ID : Value
  CHANNEL : Value
  PRODUCT_NM : Value
  ACTION : Value
deriving DecidableEq, Repr

/-- The pivot key of a builder output row. -/
def bkey (r : BuildRow) : EKey := (r.ACTIVITY_DATE, r.HCP_ID, r.ID, r.CHANNEL)

/-- Assemble a builder output row from a pivot key, product name and derived
action (the column selection of lines 120/169). -/
def mkBuildRow (k : EKey) (p a : String) : BuildRow :=
  ⟨k.1, k.2.1, k.2.2.1, k.2.2.2, Value.str p, Value.str a⟩

/-- The channel restriction of `_build_ecare` (lines 85-88). -/
def isEcareChannel (r : NormRow) : Bool :=
  r.CHANNEL == Value.str "EDETAIL_CARENET" || r.CHANNEL == Value.str "EDETAIL_MEDPEER"

/-- The channel restriction of `_build_m3` (lines 133-138). -/
def isM3Channel (r : NormRow) : Bool :=
  r.CHANNEL == Value.str "EMAIL_M3_MR_KUN" || r.CHANNEL == Value.str "EMAIL_M3_OPD"
    || r.CHANNEL == Value.str "EMAIL_M3_QUIZ" || r.CHANNEL == Value.str "EMAIL_M3_MM"

/-- `_build_ecare` (`pipelines/edetail.py` lines 75-120): restrict to the
`EDETAIL_CARENET`/`EDETAIL_MEDPEER` channels; short-circuit when empty;
pivot raw-action counts per group; derive `EXP = "Delivered"` exactly when
the group's `Delivered` count equals 1 and `ENG1 = "Opened"` exactly when
its `Opened` count equals 1 (`np.select` with a single condition and empty
default); melt (`EXP` rows first, then `ENG1` rows); drop rows with an
empty action; drop duplicate rows; assign the product name; select the
output columns. -/
def _build_ecare (edetail : List NormRow) (product_name : String) : List BuildRow :=
  let ecare := edetail.filter isEcareChannel
  if ecare.isEmpty then [] else
  let keys := pivotKeys ecare
  let melted :=
    keys.map (fun k => MeltRow.mk k "EXP"
      (if countAction ecare k "Delivered" = 1 then "Delivered" else ""))
    ++ keys.map (fun k => MeltRow.mk k "ENG1"
      (if countAction ecare k "Opened" = 1 then "Opened" else ""))
  let kept := melted.filter (fun x => x.ACTION ≠ "")
  let deduped := kept.dedup
  deduped.map (fun x => mkBuildRow x.key product_name x.ACTION)

/-- `_build_m3` (`pipelines/edetail.py` lines 123-169): the same derivation
over the four M3 channels with three conditions (`Delivered`, `Opened`,
`Clicked`), and no duplicate-dropping step. -/
def _build_m3 (edetail : List NormRow) (product_name : String) : List BuildRow :=
  let m3 := edetail.filter isM3Channel
  if m3.isEmpty then [] else
  let keys := pivotKeys m3
  let melted :=
    keys.map (fun k => MeltRow.mk k "EXP"
      (if countAction m3 k "Delivered" = 1 then "Delivered" else ""))
    ++ keys.map (fun k => MeltRow.mk k "ENG1"
      (if countAction m3 k "Opened" = 1 then "Opened" else ""))
    ++ keys.map (fun k => MeltRow.mk k "ENG2"
      (if countAction m3 k "Clicked" = 1 then "Clicked" else ""))
  let kept := melted.filter (fun x => x.ACTION ≠ "")
  kept.map (fun x => mkBuildRow x.key product_name x.ACTION)

/-- `_build_nmo` (`pipelines/edetail.py` lines 172-185): pass-through of
`EDETAIL_NMO` rows with `"Viewed"` remapped to `"Opened"`. -/
def _build_nmo (edetail : List NormRow) : List NormRow :=
  let nmo := edetail.filter (fun r => r.CHANNEL == Value.str "EDETAIL_NMO")
  if nmo.isEmpty then [] else
  nmo.map (fun r => { r with ACTION := replaceVia [("Viewed", "Opened")] r.ACTION })

/-- A combined edetail row after `add_yrmo` (line 230): the `listcol`
columns plus `YRMO`. -/
structure MidRow where
  ACTIVITY_DATE : Value
  HCP_ID : Value
  ID : Value
  CHANNEL : Value
  ACTION : Value
  PRODUCT_NM : Value
  YRMO : Value
deriving DecidableEq, Repr

/-- The delivered-linkage filter (`pipelines/edetail.py` lines 236-238):
collect the `ID`s of `Delivered`-action rows and keep only rows whose `ID`
is among them (`Series.isin`, which also matches null against null). -/
def delivered_linkage (rows : List MidRow) : List MidRow :=
  let delivered_ids := (rows.filter (fun r => r.ACTION == Value.str "Delivered")).map (·.ID)
  rows.filter (fun r => delivered_ids.contains r.ID)

/-- The configuration consumed by the edetail pipeline: the optional
`filters.product_name` and `filters.months_to_retain` keys. -/
structure EdetailConfig where
  product_name : Option String
  months_to_retain : Option Int

/-- `run` of `pipelines/edetail.py` (lines 188-247), minus the I/O at both
ends: normalize with the configured product name (`"EBG"` when the key is
absent), build the three channel families, concatenate the non-empty
builder outputs over the `listcol` columns, add `YRMO`, apply the retention
filter (the combined table always carries a `YRMO` column, and the
filter's empty-table passthrough coincides with `filter_core` on an empty
list, so `filter_core` is the whole filter here), apply the
delivered-linkage filter, and select the canonical output columns. -/
def edetail_run (df : List EdetailRow) (cfg : EdetailConfig) : Option (List OutRow) :=
  let product_name := cfg.product_name.getD "EBG"
  let edetail := _normalize_edetail df product_name
  let ecare1 := _build_ecare edetail product_name
  let m2 := _build_m3 edetail product_name
  let nmo := (_build_nmo edetail).map (fun r =>
    (⟨r.ACTIVITY_DATE, r.HCP_ID, r.ID, r.CHANNEL, r.PRODUCT_NM, r.ACTION⟩ : BuildRow))
  let frames := (if ecare1.isEmpty then [] else [ecare1])
    ++ (if m2.isEmpty then [] else [m2]) ++ (if nmo.isEmpty then [] else [nmo])
  let edetail_all := frames.flatten
  let mid := edetail_all.map (fun b =>
    (⟨b.ACTIVITY_DATE, b.HCP_ID, b.ID, b.CHANNEL, b.ACTION, b.PRODUCT_NM,
      yrmoValue b.ACTIVITY_DATE⟩ : MidRow))
  let months := cfg.months_to_retain.getD 7
  (filter_core (fun r => r.YRMO) mid months).map (fun kept =>
    (delivered_linkage kept).map (fun r =>
      (⟨r.HCP_ID, r.ACTIVITY_DATE, r.YRMO, r.ID, r.CHANNEL, r.ACTION⟩ : OutRow)))

/-! ## Call pipeline (`pipelines/call.py`) -/

/-- A raw call input row: the columns consumed by `call.run`. -/
structure CallRow where
  product_external_id_vod__c : Value
  call_date_vod__c : Value
  child_account_identifier_vod__c : Value
  call2_vod_id : Value
  recordtype_name : Value
  Action : Value
deriving DecidableEq, Repr

/-- The configuration consumed by the call pipeline. -/
structure CallConfig where
  product : Option Value
  months_to_retain : Option Int

/-- `run` of `pipelines/call.py` (lines 13-81), minus the I/O: optional
exact product filter, date parsing, rename to the canonical columns (values
pass through verbatim), `add_yrmo`, retention filter, canonical column
selection. -/
def call_run (df : List CallRow) (cfg : CallConfig) : Option (List OutRow) :=
  let df₁ : List CallRow := match cfg.product with
    | some p => if truthy p then df.filter (fun r => r.product_external_id_vod__c == p) else df
    | none => df
  let df₂ := df₁.map (fun r =>
    { r with call_date_vod__c := to_datetime_value r.call_date_vod__c })
  let mid := df₂.map (fun r =>
    (⟨r.child_account_identifier_vod__c, r.call_date_vod__c,
      yrmoValue r.call_date_vod__c, r.call2_vod_id, r.recordtype_name, r.Action⟩ : OutRow))
  filter_core (fun r => r.YRMO) mid (cfg.months_to_retain.getD 7)

/-! ## Events pipeline (`pipelines/events.py`) -/

/-- A raw events input row: the columns consumed by `events.run`. -/
structure EventsRow where
  channel : Value
  conference_id : Value
  customer_id : Value
  product_id : Value
  indication_id : Value
  action : Value
  ACTVY_STRT_DT : Value
deriving DecidableEq, Repr

/-- The configuration consumed by the events pipeline. -/
structure EventsConfig where
  product_id : Option Value
  months_to_retain : Option Int

/-- `run` of `pipelines/events.py` (lines 13-66), minus the I/O: drop rows
with a null channel (`dropna(subset=["channel"])`, line 30), parse the
start date, optional product filter compared as strings, rename to the
canonical columns, `add_yrmo`, retention filter, canonical column
selection. -/
def events_run (df : List EventsRow) (cfg : EventsConfig) : Option (List OutRow) :=
  let df₁ := df.filter (fun r => r.channel != Value.null)
  let df₂ := df₁.map (fun r =>
    { r with ACTVY_STRT_DT := to_datetime_value r.ACTVY_STRT_DT })
  let df₃ : List EventsRow := match cfg.product_id with
    | some p => if truthy p then df₂.filter (fun r => pyStr r.product_id == pyStr p) else df₂
    | none => df₂
  let mid := df₃.map (fun r =>
    (⟨r.customer_id, r.ACTVY_STRT_DT, yrmoValue r.ACTVY_STRT_DT,
      r.conference_id, r.channel, r.action⟩ : OutRow))
  filter_core (fun r => r.YRMO) mid (cfg.months_to_retain.getD 7)

/-! ## VAE pipeline (`pipelines/vae.py`) -/

/-- A raw VAE input row: the columns consumed by `vae.run`. -/
structure VaeRow where
  customer_id : Value
  activity_date : Value
  sevc_id : Value
  action : Value
  product_id : Value
deriving DecidableEq, Repr

/-- The configuration consumed by the VAE pipeline. -/
structure VaeConfig where
  product_id : Option Value
  months_to_retain : Option Int

/-- The `sort_values(by=["customer_id", "yrmoda", "sevc_id", "action"])`
comparison (`pipelines/vae.py` lines 39-43), with `yrmoda` the parsed
activity date. -/
def vaeSortLe (a b : VaeRow) : Bool :=
  if a.customer_id ≠ b.customer_id then valLeB a.customer_id b.customer_id
  else if to_datetime_value a.activity_date ≠ to_datetime_value b.activity_date then
    valLeB (to_datetime_value a.activity_date) (to_datetime_value b.activity_date)
  else if a.sevc_id ≠ b.sevc_id then valLeB a.sevc_id b.sevc_id
  else valLeB a.action b.action

/-- `run` of `pipelines/vae.py` (lines 13-71), minus the I/O: optional
exact product filter, sort by customer/parsed date/service id/action,
constant `CHANNEL = "LMMR"`, rename, `add_yrmo` on the raw
`ACTIVITY_DATE`, retention filter, canonical column selection. -/
def vae_run (df : List VaeRow) (cfg : VaeConfig) : Option (List OutRow) :=
  let df₁ : List VaeRow := match cfg.product_id with
    | some p => if truthy p then df.filter (fun r => r.product_id == p) else df
    | none => df
  let sorted := sortLe vaeSortLe df₁
  let mid := sorted.map (fun r =>
    (⟨r.customer_id, r.activity_date, yrmoValue r.activity_date,
      r.sevc_id, Value.str "LMMR", r.action⟩ : OutRow))
  filter_core (fun r => r.YRMO) mid (cfg.months_to_retain.getD 7)

/-! ## Merge stage (`pipelines/hco_promotion.py`) -/

/-- Union of column lists in order of first appearance, the column result
of `pd.concat(..., ignore_index=True)` with its default `sort=False`. -/
def concatCols (css : List (List String)) : List String :=
  css.foldl (fun acc cs => acc ++ cs.filter (fun c => decide (c ∉ acc))) []

/-- `run` of `pipelines/hco_promotion.py` (lines 13-44), minus the I/O:
`pd.concat([event, edetail, call, vae], ignore_index=True)` — the rows of
the four inputs appended in that fixed order, unchanged; the columns are
the union; a column absent from one source reads as null on that source's
rows. -/
def hco_run (event edetail call vae : DataFrame) : DataFrame :=
  ⟨concatCols [event.cols, edetail.cols, call.cols, vae.cols],
   event.rows ++ edetail.rows ++ call.rows ++ vae.rows⟩

/-! ## Digit-character and lexicographic-order lemmas -/

theorem digitChar_lt_iff_fin : ∀ a b : Fin 10, (digitChar a < digitChar b ↔ (a : Nat) < (b : Nat)) := by
  decide

theorem digitChar_eq_iff_fin : ∀ a b : Fin 10, (digitChar a = digitChar b ↔ (a : Nat) = (b : Nat)) := by
  decide

theorem digitChar_le_iff_fin : ∀ a b : Fin 10, (digitChar a ≤ digitChar b ↔ (a : Nat) ≤ (b : Nat)) := by
  decide

theorem digitChar_lt_N_fin : ∀ a : Fin 10, digitChar a < 'N' := by
  decide

theorem digitChar_isDigit_fin : ∀ a : Fin 10, (digitChar a).isDigit := by
  decide

theorem charDigit_digitChar_fin : ∀ a : Fin 10, charDigit (digitChar a) = a := by
  decide

theorem digitChar_mod_lt_iff (x y : Nat) :
    digitChar (x % 10) < digitChar (y % 10) ↔ x % 10 < y % 10 :=
  digitChar_lt_iff_fin ⟨x % 10, Nat.mod_lt _ (by omega)⟩ ⟨y % 10, Nat.mod_lt _ (by omega)⟩

theorem digitChar_mod_eq_iff (x y : Nat) :
    digitChar (x % 10) = digitChar (y % 10) ↔ x % 10 = y % 10 :=
  digitChar_eq_iff_fin ⟨x % 10, Nat.mod_lt _ (by omega)⟩ ⟨y % 10, Nat.mod_lt _ (by omega)⟩

theorem digitChar_mod_lt_N (x : Nat) : digitChar (x % 10) < 'N' :=
  digitChar_lt_N_fin ⟨x % 10, Nat.mod_lt _ (by omega)⟩

theorem digitChar_mod_isDigit (x : Nat) : (digitChar (x % 10)).isDigit :=
  digitChar_isDigit_fin ⟨x % 10, Nat.mod_lt _ (by omega)⟩

theorem charDigit_digitChar_mod (x : Nat) : charDigit (digitChar (x % 10)) = x % 10 :=
  charDigit_digitChar_fin ⟨x % 10, Nat.mod_lt _ (by omega)⟩

theorem digitChar_le_iff {x y : Nat} (hx : x < 10) (hy : y < 10) :
    digitChar x ≤ digitChar y ↔ x ≤ y :=
  digitChar_le_iff_fin ⟨x, hx⟩ ⟨y, hy⟩

theorem charList_lt_cons_iff {a b : Char} {as bs : List Char} :
    a :: as < b :: bs ↔ a < b ∨ (a = b ∧ as < bs) := by
  constructor
  · intro h
    cases h with
    | cons h => exact Or.inr ⟨rfl, h⟩
    | rel h => exact Or.inl h
  · rintro (h | ⟨rfl, h⟩)
    · exact List.Lex.rel h
    · exact List.Lex.cons h

theorem charList_nil_lt_nil : (([] : List Char) < []) ↔ False := by
  constructor
  · intro h; cases h
  · exact False.elim

theorem string_lt_iff_data {s t : String} : s < t ↔ s.data < t.data :=
  String.lt_iff_toList_lt

theorem string_eq_iff_data {s t : String} : s = t ↔ s.data = t.data := by
  constructor
  · intro h; rw [h]
  · intro h; cases s; cases t; exact congrArg String.mk h

theorem charListLtB_iff : ∀ l₁ l₂ : List Char, charListLtB l₁ l₂ = true ↔ l₁ < l₂
  | _ :: _, [] => by
    unfold charListLtB
    exact iff_of_false (by simp) (List.Lex.not_nil_right _ _)
  | [], [] => by
    unfold charListLtB
    exact iff_of_false (by simp) (List.Lex.not_nil_right _ _)
  | [], b :: bs => by
    unfold charListLtB
    exact iff_of_true rfl List.Lex.nil
  | a :: as, b :: bs => by
    unfold charListLtB
    by_cases hab : a < b
    · rw [if_pos hab]
      exact iff_of_true rfl (List.Lex.rel hab)
    · rw [if_neg hab]
      by_cases hba : b < a
      · rw [if_pos hba]
        refine iff_of_false (by simp) ?_
        rw [charList_lt_cons_iff]
        rintro (h | ⟨rfl, h⟩)
        · exact hab h
        · exact lt_irrefl a hba
      · rw [if_neg hba]
        have hq : a = b := le_antisymm (le_of_not_lt hba) (le_of_not_lt hab)
        subst hq
        rw [charListLtB_iff as bs, charList_lt_cons_iff]
        constructor
        · exact fun h => Or.inr ⟨rfl, h⟩
        · rintro (h | ⟨-, h⟩)
          · exact absurd h (lt_irrefl a)
          · exact h

theorem strLtB_iff (s t : String) : strLtB s t = true ↔ s < t := by
  rw [String.lt_iff_toList_lt]
  exact charListLtB_iff s.data t.data

theorem strLtB_eq_false_iff (s t : String) : strLtB s t = false ↔ ¬ s < t := by
  rw [← strLtB_iff]
  simp

theorem valGe_str_iff (s start : String) :
    valGe (Value.str s) start = true ↔ ¬ s < start := by
  unfold valGe
  rw [Bool.not_eq_true']
  exact strLtB_eq_false_iff s start

theorem fmtYM_data (y m : Nat) : (fmtYM y m).data = pad4chars y ++ '-' :: pad2chars m := by
  simp [fmtYM, pad4, pad2]

theorem dash_not_lt_dash : ¬ ('-' : Char) < '-' := by decide

/-- Lexicographic comparison of canonical `"YYYY-MM"` strings mirrors the
numeric comparison of their year/month pairs. -/
theorem fmtYM_lt_iff {y₁ m₁ y₂ m₂ : Nat} (hy₁ : y₁ ≤ 9999) (hy₂ : y₂ ≤ 9999)
    (hm₁ : m₁ ≤ 99) (hm₂ : m₂ ≤ 99) :
    fmtYM y₁ m₁ < fmtYM y₂ m₂ ↔ (y₁ < y₂ ∨ (y₁ = y₂ ∧ m₁ < m₂)) := by
  rw [string_lt_iff_data, fmtYM_data, fmtYM_data]
  simp only [pad4chars, pad2chars, List.cons_append, List.nil_append]
  simp only [charList_lt_cons_iff, charList_nil_lt_nil,
    iff_false_intro dash_not_lt_dash, digitChar_mod_lt_iff, digitChar_mod_eq_iff,
    false_or, or_false, and_false, false_and, true_and, and_true, eq_self_iff_true]
  have hr₁ : y₁ = 1000 * (y₁/1000%10) + 100 * (y₁/100%10) + 10 * (y₁/10%10) + y₁%10 := by
    omega
  have hr₂ : y₂ = 1000 * (y₂/1000%10) + 100 * (y₂/100%10) + 10 * (y₂/10%10) + y₂%10 := by
    omega
  have hs₁ : m₁ = 10 * (m₁/10%10) + m₁%10 := by omega
  have hs₂ : m₂ = 10 * (m₂/10%10) + m₂%10 := by omega
  omega

/-- Canonical `"YYYY-MM"` strings are equal exactly when their year/month
pairs are. -/
theorem fmtYM_inj {y₁ m₁ y₂ m₂ : Nat} (hy₁ : y₁ ≤ 9999) (hy₂ : y₂ ≤ 9999)
    (hm₁ : m₁ ≤ 99) (hm₂ : m₂ ≤ 99) :
    fmtYM y₁ m₁ = fmtYM y₂ m₂ ↔ (y₁ = y₂ ∧ m₁ = m₂) := by
  rw [string_eq_iff_data, fmtYM_data, fmtYM_data]
  simp only [pad4chars, pad2chars, List.cons_append, List.nil_append, List.cons.injEq,
    and_true, digitChar_mod_eq_iff, true_and]
  have hr₁ : y₁ = 1000 * (y₁/1000%10) + 100 * (y₁/100%10) + 10 * (y₁/10%10) + y₁%10 := by
    omega
  have hr₂ : y₂ = 1000 * (y₂/1000%10) + 100 * (y₂/100%10) + 10 * (y₂/10%10) + y₂%10 := by
    omega
  have hs₁ : m₁ = 10 * (m₁/10%10) + m₁%10 := by omega
  have hs₂ : m₂ = 10 * (m₂/10%10) + m₂%10 := by omega
  omega

/-- Every `"YYYY-MM"` string sorts lexicographically before the literal
string `"NaT"` (its first character is a digit, and every digit precedes
`'N'`). -/
theorem fmtYM_lt_NaT (y m : Nat) : fmtYM y m < "NaT" := by
  rw [string_lt_iff_data, fmtYM_data]
  have h : "NaT".data = 'N' :: ['a', 'T'] := rfl
  rw [h]
  simp only [pad4chars, List.cons_append]
  exact List.Lex.rel (digitChar_mod_lt_N _)

theorem fmtYearNoPad_eq_pad4 {y : Nat} (h : 1000 ≤ y) : fmtYearNoPad y = pad4 y := by
  unfold fmtYearNoPad
  rw [if_neg (by omega), if_neg (by omega), if_neg (by omega)]

/-- Parsing a canonical `"YYYY-MM"` rendering recovers the year and
month. -/
theorem strptime_YM_fmtYM {y m : Nat} (hy : y ≤ 9999) (hm₁ : 1 ≤ m) (hm₂ : m ≤ 12) :
    strptime_YM (fmtYM y m) = some (y, m) := by
  have hdata : (fmtYM y m).data =
      [digitChar (y / 1000 % 10), digitChar (y / 100 % 10), digitChar (y / 10 % 10),
        digitChar (y % 10), '-', digitChar (m / 10 % 10), digitChar (m % 10)] := by
    rw [fmtYM_data]; simp [pad4chars, pad2chars]
  unfold strptime_YM
  rw [hdata]
  dsimp only
  rw [if_pos ⟨rfl, digitChar_mod_isDigit _, digitChar_mod_isDigit _, digitChar_mod_isDigit _,
    digitChar_mod_isDigit _⟩]
  rcases Nat.lt_or_ge m 10 with h10 | h10
  · have hdiv : m / 10 % 10 = 0 % 10 := by omega
    rw [if_neg, if_pos]
    · simp only [Option.some.injEq, Prod.mk.injEq]
      constructor
      · simp only [charDigit_digitChar_mod]; omega
      · rw [charDigit_digitChar_mod]; omega
    · refine ⟨?_, ?_, ?_⟩
      · rw [hdiv]; rfl
      · show digitChar 1 ≤ digitChar (m % 10)
        rw [digitChar_le_iff (by omega) (by omega)]
        omega
      · show digitChar (m % 10) ≤ digitChar 9
        rw [digitChar_le_iff (by omega) (by omega)]
        omega
    · intro hcon
      have := hcon.1
      rw [hdiv] at this
      exact absurd this (by decide)
  · have hdiv : m / 10 % 10 = 1 % 10 := by omega
    rw [if_pos]
    · simp only [Option.some.injEq, Prod.mk.injEq]
      constructor
      · simp only [charDigit_digitChar_mod]; omega
      · rw [charDigit_digitChar_mod]; omega
    · refine ⟨by rw [hdiv]; rfl, ?_, ?_⟩
      · show digitChar 0 ≤ digitChar (m % 10)
        rw [digitChar_le_iff (by omega) (by omega)]
        omega
      · show digitChar (m % 10) ≤ digitChar 2
        rw [digitChar_le_iff (by omega) (by omega)]
        omega

/-! ## `seriesMax` and `filter_core` lemmas -/

theorem seriesMax_cons_str (s : String) (vs : List Value) :
    seriesMax (Value.str s :: vs) =
      match seriesMax vs with
      | Value.str t => Value.str (strMax s t)
      | _ => Value.str s := rfl

theorem seriesMax_cons_null (vs : List Value) :
    seriesMax (Value.null :: vs) = seriesMax vs := rfl

theorem seriesMax_cons_date (y m d : Nat) (vs : List Value) :
    seriesMax (Value.date y m d :: vs) = seriesMax vs := rfl

theorem le_strMax_left (s t : String) : s ≤ strMax s t := by
  unfold strMax
  split
  · exact le_of_lt ((strLtB_iff s t).mp (by assumption))
  · exact le_refl s

theorem le_strMax_right (s t : String) : t ≤ strMax s t := by
  unfold strMax
  split
  · exact le_refl t
  · exact le_of_not_lt ((strLtB_eq_false_iff s t).mp (Bool.eq_false_iff.mpr (by assumption)))

/-- The maximum of a column is attained by one of its cells. -/
theorem seriesMax_mem {l : List Value} {M : String} (h : seriesMax l = Value.str M) :
    Value.str M ∈ l := by
  induction l with
  | nil => simp [seriesMax] at h
  | cons v vs ih =>
    cases v with
    | null =>
      rw [seriesMax_cons_null] at h
      exact List.mem_cons_of_mem _ (ih h)
    | date y m d =>
      rw [seriesMax_cons_date] at h
      exact List.mem_cons_of_mem _ (ih h)
    | str s =>
      rw [seriesMax_cons_str] at h
      cases hvs : seriesMax vs with
      | str t =>
        rw [hvs] at h
        dsimp only at h
        simp only [Value.str.injEq] at h
        unfold strMax at h
        split at h
        · exact List.mem_cons_of_mem _ (ih (by rw [hvs, h]))
        · exact h ▸ List.mem_cons_self _ _
      | null =>
        rw [hvs] at h
        dsimp only at h
        simp only [Value.str.injEq] at h
        exact h ▸ List.mem_cons_self _ _
      | date y m d =>
        rw [hvs] at h
        dsimp only at h
        simp only [Value.str.injEq] at h
        exact h ▸ List.mem_cons_self _ _

/-- Every string cell of a column is bounded by the column's maximum. -/
theorem seriesMax_le {l : List Value} {s : String} (h : Value.str s ∈ l) :
    ∃ M, seriesMax l = Value.str M ∧ s ≤ M := by
  induction l with
  | nil => simp at h
  | cons v vs ih =>
    rcases List.mem_cons.mp h with heq | hmem
    · subst heq
      rw [seriesMax_cons_str]
      cases hvs : seriesMax vs with
      | str t => exact ⟨strMax s t, rfl, le_strMax_left s t⟩
      | null => exact ⟨s, rfl, le_refl s⟩
      | date y m d => exact ⟨s, rfl, le_refl s⟩
    · obtain ⟨M, hM, hsM⟩ := ih hmem
      cases v with
      | null => exact ⟨M, by rw [seriesMax_cons_null, hM], hsM⟩
      | date y m d => exact ⟨M, by rw [seriesMax_cons_date, hM], hsM⟩
      | str s' =>
        refine ⟨strMax s' M, ?_, le_trans hsM (le_strMax_right s' M)⟩
        rw [seriesMax_cons_str, hM]

/-- A string cell that bounds every string cell of the column is the
column's maximum. -/
theorem seriesMax_eq_of_mem_of_le {l : List Value} {M : String}
    (hmem : Value.str M ∈ l) (hub : ∀ s, Value.str s ∈ l → s ≤ M) :
    seriesMax l = Value.str M := by
  obtain ⟨M', hM', hle⟩ := seriesMax_le hmem
  have h2 : M' ≤ M := hub M' (seriesMax_mem hM')
  rw [hM', le_antisymm h2 hle]

/-- A successful retention filtering returns a subset of the input rows. -/
theorem filter_core_subset {α : Type} {f : α → Value} {l l' : List α} {n : Int}
    (h : filter_core f l n = some l') : ∀ x ∈ l', x ∈ l := by
  unfold filter_core at h
  split at h
  · simp only [Option.some.injEq] at h
    subst h; exact fun x hx => hx
  · simp only [Option.some.injEq] at h
    subst h; exact fun x hx => hx
  · split at h
    · exact absurd h (by simp)
    · dsimp only at h
      split at h
      · exact absurd h (by simp)
      · simp only [Option.some.injEq] at h
        subst h
        exact fun x hx => List.mem_of_mem_filter hx

/-- Evaluation of the retention filter on its success path: a non-null
maximum that parses, with the window start inside `datetime`'s year
range. -/
theorem filter_core_success {α : Type} (f : α → Value) (l : List α) (n : Int)
    {M : String} {y m : Nat}
    (hmax : seriesMax (l.map f) = Value.str M)
    (hparse : strptime_YM M = some (y, m))
    (h1 : 1 ≤ ((y : Int) * 12 + ((m : Int) - 1) - (n - 1)) / 12)
    (h2 : ((y : Int) * 12 + ((m : Int) - 1) - (n - 1)) / 12 ≤ 9999) :
    filter_core f l n = some (l.filter (fun r => valGe (f r)
      (fmtYearNoPad (((y : Int) * 12 + ((m : Int) - 1) - (n - 1)) / 12).toNat ++ "-"
        ++ pad2 ((((y : Int) * 12 + ((m : Int) - 1) - (n - 1)) % 12 + 1).toNat)))) := by
  unfold filter_core
  rw [hmax]
  dsimp only
  rw [hparse]
  dsimp only
  rw [if_neg (by omega)]

/-! ## `Row.set` lemmas -/

theorem find?_map_update (r : Row) (c : String) (v : Value)
    (h : r.any (fun p => p.1 = c) = true) :
    (r.map (fun p => if p.1 = c then (p.1, v) else p)).find? (fun p => p.1 = c)
      = some (c, v) := by
  induction r with
  | nil => simp at h
  | cons p rest ih =>
    simp only [List.any_cons, Bool.or_eq_true, decide_eq_true_eq] at h
    simp only [List.map_cons]
    by_cases hp : p.1 = c
    · rw [if_pos hp, List.find?_cons_of_pos _ (by simp [hp]), hp]
    · rw [if_neg hp, List.find?_cons_of_neg _ (by simp [hp])]
      exact ih (h.resolve_left hp)

theorem find?_append_single (r : Row) (c : String) (v : Value)
    (h : r.any (fun p => p.1 = c) = false) :
    (r ++ [(c, v)]).find? (fun p => p.1 = c) = some (c, v) := by
  induction r with
  | nil => simp
  | cons p rest ih =>
    simp only [List.any_cons, Bool.or_eq_false_iff, decide_eq_false_iff_not] at h
    simp only [List.cons_append]
    rw [List.find?_cons_of_neg _ (by simp [h.1])]
    exact ih (by simp [h.2])

/-- Reading back the column just written by `Row.set`. -/
theorem row_get_set_self (r : Row) (c : String) (v : Value) :
    Row.get (Row.set r c v) c = v := by
  unfold Row.set
  by_cases h : r.any (fun p => p.1 = c) = true
  · rw [if_pos h]
    unfold Row.get
    rw [find?_map_update r c v h]
  · rw [if_neg h]
    unfold Row.get
    rw [find?_append_single r c v (Bool.eq_false_iff.mpr h)]

/-- The `YRMO` cells of an `add_yrmo` result are the `yrmoValue`s of the
date column. -/
theorem add_yrmo_yrmo_cells (df : DataFrame) (date_col : String) :
    (add_yrmo df date_col).rows.map (fun r => Row.get r "YRMO")
      = df.rows.map (fun r => yrmoValue (Row.get r date_col)) := by
  unfold add_yrmo
  rw [List.map_map]
  exact List.map_congr_left (fun r _ => row_get_set_self r "YRMO" _)

/-- Every `yrmoStr` is at most the string `"NaT"` in lexicographic order
(`"YYYY-MM"` strings start with a digit; `"NaT"` is the top value). -/
theorem yrmoStr_le_NaT (v : Value) : yrmoStr v ≤ "NaT" := by
  unfold yrmoStr
  cases to_datetime v with
  | some d => exact le_of_lt (fmtYM_lt_NaT d.year d.month)
  | none => exact le_refl _

/-! ## C3: `add_yrmo` + null dates poison the retention filter -/

/-- **C3.**  If any row's date is null or unparseable, `add_yrmo` writes
the literal string `"NaT"` (never a null) into that row's `YRMO`; since
every `"YYYY-MM"` string starts with a digit and digits precede `'N'`,
`"NaT"` is the lexicographic maximum of the resulting `YRMO` column; the
`pd.isna` guard does not fire on it, `strptime` fails on it, and the
retention filter therefore raises (returns `none`) instead of filtering or
passing through. -/
theorem C3_add_yrmo_NaT_poisons_retention (df : DataFrame) (date_col : String) (n : Int)
    (h : ∃ r ∈ df.rows, to_datetime (Row.get r date_col) = none) :
    (∀ r' ∈ (add_yrmo df date_col).rows, Row.get r' "YRMO" ≠ Value.null)
    ∧ Value.str "NaT" ∈ (add_yrmo df date_col).rows.map (fun r => Row.get r "YRMO")
    ∧ seriesMax ((add_yrmo df date_col).rows.map (fun r => Row.get r "YRMO"))
        = Value.str "NaT"
    ∧ filter_by_yrmo_retention (add_yrmo df date_col) n = none := by
  obtain ⟨r₀, hr₀, hnull⟩ := h
  have hcells := add_yrmo_yrmo_cells df date_col
  have hmem : Value.str "NaT" ∈ (add_yrmo df date_col).rows.map (fun r => Row.get r "YRMO") := by
    rw [hcells]
    refine List.mem_map.mpr ⟨r₀, hr₀, ?_⟩
    unfold yrmoValue yrmoStr
    rw [hnull]
  have hmax : seriesMax ((add_yrmo df date_col).rows.map (fun r => Row.get r "YRMO"))
      = Value.str "NaT" := by
    refine seriesMax_eq_of_mem_of_le hmem ?_
    intro s hs
    rw [hcells] at hs
    obtain ⟨r, _, hr⟩ := List.mem_map.mp hs
    unfold yrmoValue at hr
    have : s = yrmoStr (Row.get r date_col) := by
      have := hr.symm
      simpa [Value.str.injEq] using this
    rw [this]
    exact yrmoStr_le_NaT _
  refine ⟨?_, hmem, hmax, ?_⟩
  · intro r' hr'
    unfold add_yrmo at hr'
    obtain ⟨r, _, rfl⟩ := List.mem_map.mp hr'
    rw [row_get_set_self]
    unfold yrmoValue
    exact fun hcon => Value.noConfusion hcon
  · unfold filter_by_yrmo_retention
    have hne : (add_yrmo df date_col).rows.isEmpty = false := by
      unfold add_yrmo
      cases hv : df.rows with
      | nil => rw [hv] at hr₀; simp at hr₀
      | cons a l => simp [hv]
    have hcol : "YRMO" ∈ (add_yrmo df date_col).cols := by
      unfold add_yrmo
      split
      · assumption
      · exact List.mem_append.mpr (Or.inr (List.mem_singleton.mpr rfl))
    rw [if_neg (by simp [hne, hcol])]
    unfold filter_core
    rw [hmax]
    dsimp only
    rw [show strptime_YM "NaT" = none from rfl]
    rfl

/-- Witness for C3 at a concrete table with one null date. -/
theorem C3_witness :
    (∃ r ∈ ([[("d", Value.null)], [("d", Value.str "2024-03-15")]] : List Row),
      to_datetime (Row.get r "d") = none)
    ∧ filter_by_yrmo_retention
        (add_yrmo ⟨["d"], [[("d", Value.null)], [("d", Value.str "2024-03-15")]]⟩ "d") 7
      = none :=
  ⟨by decide,
    (C3_add_yrmo_NaT_poisons_retention
      ⟨["d"], [[("d", Value.null)], [("d", Value.str "2024-03-15")]]⟩ "d" 7
      ⟨[("d", Value.null)], by decide, by decide⟩).2.2.2⟩

/-! ## C2: the fail-open branches of the retention filter -/

/-- **C2 counterexample.**  The claim says a non-null *unparseable* maximum
is returned unchanged; in the code only a *null* maximum is guarded
(`pd.isna`), and `datetime.strptime` raises on a non-null unparseable
maximum such as the string `"NaT"`.  On a one-row table whose `YRMO` is the
string `"NaT"` the filter raises (`none`) instead of returning the input. -/
theorem C2_counterexample :
    seriesMax (([[("YRMO", Value.str "NaT")]] : List Row).map (fun r => Row.get r "YRMO"))
      = Value.str "NaT"
    ∧ strptime_YM "NaT" = none
    ∧ filter_by_yrmo_retention ⟨["YRMO"], [[("YRMO", Value.str "NaT")]]⟩ 7 = none := by
  decide

/-- **C2 (amended).**  The retention filter returns the input unchanged
when the table is empty, lacks a `YRMO` column, or has a null maximum
`YRMO` (in particular when every `YRMO` is null); but when the maximum is a
non-null string that `strptime` cannot parse, the filter raises instead of
passing through. -/
theorem C2_retention_fail_open_amended :
    (∀ (df : DataFrame) (n : Int),
      (df.rows.isEmpty = true ∨ "YRMO" ∉ df.cols
        ∨ seriesMax (df.rows.map (fun r => Row.get r "YRMO")) = Value.null) →
      filter_by_yrmo_retention df n = some df)
    ∧ (∀ (df : DataFrame) (n : Int) (M : String),
      seriesMax (df.rows.map (fun r => Row.get r "YRMO")) = Value.str M →
      strptime_YM M = none →
      "YRMO" ∈ df.cols →
      filter_by_yrmo_retention df n = none) := by
  constructor
  · intro df n h
    unfold filter_by_yrmo_retention
    rcases h with h | h | h
    · rw [if_pos (Or.inl h)]
    · rw [if_pos (Or.inr h)]
    · by_cases hc : df.rows.isEmpty = true ∨ "YRMO" ∉ df.cols
      · rw [if_pos hc]
      · rw [if_neg hc]
        unfold filter_core
        rw [h]
        rfl
  · intro df n M hmax hp hcol
    unfold filter_by_yrmo_retention
    have hne : df.rows.isEmpty = false := by
      cases hv : df.rows with
      | nil => rw [hv] at hmax; simp [seriesMax] at hmax
      | cons a l => simp [hv]
    rw [if_neg (by simp [hne, hcol])]
    unfold filter_core
    rw [hmax]
    dsimp only
    rw [hp]
    rfl

/-- Witness for C2 (amended) at concrete tables: an empty table, a table
without `YRMO`, an all-null `YRMO` table, and an unparseable non-null
maximum. -/
theorem C2_retention_fail_open_witness :
    filter_by_yrmo_retention ⟨["YRMO"], []⟩ 7 = some ⟨["YRMO"], []⟩
    ∧ filter_by_yrmo_retention ⟨["X"], [[("X", Value.str "a")]]⟩ 7
        = some ⟨["X"], [[("X", Value.str "a")]]⟩
    ∧ filter_by_yrmo_retention ⟨["YRMO"], [[("YRMO", Value.null)]]⟩ 7
        = some ⟨["YRMO"], [[("YRMO", Value.null)]]⟩
    ∧ filter_by_yrmo_retention ⟨["YRMO"], [[("YRMO", Value.str "abc")]]⟩ 7 = none := by
  refine ⟨?_, ?_, ?_, ?_⟩
  · exact C2_retention_fail_open_amended.1 _ 7 (Or.inl rfl)
  · exact C2_retention_fail_open_amended.1 _ 7 (Or.inr (Or.inl (by decide)))
  · exact C2_retention_fail_open_amended.1 _ 7 (Or.inr (Or.inr (by decide)))
  · exact C2_retention_fail_open_amended.2 _ 7 "abc" (by decide) (by decide) (by decide)

/-! ## C1: the retention window -/

/-- **C1 counterexample.**  The claim quantifies over every table whose
maximum `YRMO` is a non-null parseable string and asserts that for `N = 1`
only rows whose `YRMO` equals the maximum remain.  `strptime` with format
`"%Y-%m"` also accepts a single-digit month (`"2024-3"`, regex
`1[0-2]|0[1-9]|[1-9]`), and `"2024-3"` is lexicographically **greater**
than `"2024-03"`.  On the two-row table with `YRMO` values `"2024-03"` and
`"2024-3"` and `N = 1`, the maximum is `"2024-3"`, the computed window
start is `"2024-03"`, and both rows are retained — including the row whose
`YRMO` differs from the maximum. -/
theorem C1_counterexample :
    strptime_YM "2024-3" = some (2024, 3)
    ∧ seriesMax (([[("YRMO", Value.str "2024-03")], [("YRMO", Value.str "2024-3")]] :
        List Row).map (fun r => Row.get r "YRMO")) = Value.str "2024-3"
    ∧ filter_by_yrmo_retention
        ⟨["YRMO"], [[("YRMO", Value.str "2024-03")], [("YRMO", Value.str "2024-3")]]⟩ 1
      = some ⟨["YRMO"], [[("YRMO", Value.str "2024-03")], [("YRMO", Value.str "2024-3")]]⟩
    ∧ Value.str "2024-03" ≠ Value.str "2024-3" := by
  decide

/-- **C1 (amended).**  For a table whose non-null `YRMO` cells are all
canonical zero-padded `"YYYY-MM"` strings, whose maximum is non-null (and
parses as `(y, m)`), and for `N ≥ 1` such that the window start
`(y, m) − (N − 1)` months still has a four-digit year: the filter returns
exactly the rows whose `YRMO` is `≥` the window-start string; the output's
maximum `YRMO` equals the input's; and for `N = 1` exactly the rows whose
`YRMO` equals the maximum remain. -/
theorem C1_retention_window_amended (df : DataFrame) (N : Int) (M : String) (y m : Nat)
    (hN : 1 ≤ N)
    (hcol : "YRMO" ∈ df.cols)
    (hcanon : ∀ r ∈ df.rows, Row.get r "YRMO" = Value.null ∨
      ∃ a b : Nat, a ≤ 9999 ∧ 1 ≤ b ∧ b ≤ 12 ∧ Row.get r "YRMO" = Value.str (fmtYM a b))
    (hmax : seriesMax (df.rows.map (fun r => Row.get r "YRMO")) = Value.str M)
    (hparse : strptime_YM M = some (y, m))
    (hstart : 12 * 1000 ≤ (y : Int) * 12 + ((m : Int) - 1) - (N - 1)) :
    filter_by_yrmo_retention df N
        = some ⟨df.cols,
            df.rows.filter (fun r => valGe (Row.get r "YRMO") (specWindowStart y m N))⟩
    ∧ seriesMax ((df.rows.filter
          (fun r => valGe (Row.get r "YRMO") (specWindowStart y m N))).map
        (fun r => Row.get r "YRMO")) = Value.str M
    ∧ (N = 1 → df.rows.filter (fun r => valGe (Row.get r "YRMO") (specWindowStart y m N))
        = df.rows.filter (fun r => Row.get r "YRMO" == Value.str M)) := by
  have hMmem : Value.str M ∈ df.rows.map (fun r => Row.get r "YRMO") := seriesMax_mem hmax
  obtain ⟨rM, hrM, hgetM⟩ := List.mem_map.mp hMmem
  rcases hcanon rM hrM with hnull | ⟨a, b, ha, hb1, hb2, heq⟩
  · rw [hnull] at hgetM; exact absurd hgetM (by simp)
  have hMfmt : fmtYM a b = M := by
    rw [heq] at hgetM
    exact Value.str.inj hgetM
  have h2 := strptime_YM_fmtYM ha hb1 hb2
  rw [hMfmt, hparse] at h2
  simp only [Option.some.injEq, Prod.mk.injEq] at h2
  obtain ⟨rfl, rfl⟩ := h2
  -- an upper bound for every string cell of the column
  have hub : ∀ s, Value.str s ∈ df.rows.map (fun r => Row.get r "YRMO") → s ≤ M := by
    intro s hs
    obtain ⟨M', hM', hle⟩ := seriesMax_le hs
    have : M' = M := Value.str.inj (hM'.symm.trans hmax)
    exact this ▸ hle
  have h1 : 1 ≤ ((y : Int) * 12 + ((m : Int) - 1) - (N - 1)) / 12 := by omega
  have h2' : ((y : Int) * 12 + ((m : Int) - 1) - (N - 1)) / 12 ≤ 9999 := by omega
  have hne : df.rows.isEmpty = false := by
    cases hv : df.rows with
    | nil => rw [hv] at hrM; simp at hrM
    | cons x l => simp [hv]
  have hcore := filter_core_success (fun r => Row.get r "YRMO") df.rows N hmax hparse h1 h2'
  have hSS : fmtYearNoPad ((((y : Int) * 12 + ((m : Int) - 1) - (N - 1)) / 12)).toNat ++ "-"
        ++ pad2 (((((y : Int) * 12 + ((m : Int) - 1) - (N - 1)) % 12 + 1))).toNat
      = specWindowStart y m N := by
    rw [fmtYearNoPad_eq_pad4
      (by omega : 1000 ≤ ((((y : Int) * 12 + ((m : Int) - 1) - (N - 1)) / 12)).toNat)]
    rfl
  rw [hSS] at hcore
  have hmain : filter_by_yrmo_retention df N
      = some ⟨df.cols,
          df.rows.filter (fun r => valGe (Row.get r "YRMO") (specWindowStart y m N))⟩ := by
    unfold filter_by_yrmo_retention
    rw [if_neg (by simp [hne, hcol])]
    rw [hcore]
    rfl
  have hSle : specWindowStart y m N ≤ M := by
    rw [← hMfmt]
    have hnlt : ¬ fmtYM y m <
        fmtYM ((((y : Int) * 12 + ((m : Int) - 1) - (N - 1)) / 12)).toNat
          (((((y : Int) * 12 + ((m : Int) - 1) - (N - 1)) % 12 + 1))).toNat := by
      rw [fmtYM_lt_iff ha (by omega) (by omega) (by omega)]
      omega
    exact le_of_not_lt hnlt
  have hvalGeM : valGe (Value.str M) (specWindowStart y m N) = true :=
    (valGe_str_iff _ _).mpr (not_lt.mpr hSle)
  have hmem2 : Value.str M ∈ (df.rows.filter
      (fun r => valGe (Row.get r "YRMO") (specWindowStart y m N))).map
        (fun r => Row.get r "YRMO") := by
    refine List.mem_map.mpr ⟨rM, List.mem_filter.mpr ⟨hrM, ?_⟩, hgetM⟩
    rw [hgetM]
    exact hvalGeM
  have hub2 : ∀ s, Value.str s ∈ (df.rows.filter
      (fun r => valGe (Row.get r "YRMO") (specWindowStart y m N))).map
        (fun r => Row.get r "YRMO") → s ≤ M := by
    intro s hs
    obtain ⟨r, hr, hget⟩ := List.mem_map.mp hs
    exact hub s (List.mem_map.mpr ⟨r, List.mem_of_mem_filter hr, hget⟩)
  refine ⟨hmain, seriesMax_eq_of_mem_of_le hmem2 hub2, ?_⟩
  intro hN1
  subst hN1
  have hSM : specWindowStart y m 1 = M := by
    rw [← hMfmt]
    unfold specWindowStart
    have e1 : (((y : Int) * 12 + ((m : Int) - 1) - (1 - 1)) / 12).toNat = y := by omega
    have e2 : ((((y : Int) * 12 + ((m : Int) - 1) - (1 - 1)) % 12 + 1)).toNat = m := by omega
    rw [e1, e2]
  rw [hSM]
  apply List.filter_congr
  intro r hr
  rcases hcanon r hr with hnull | ⟨a', b', ha', hb1', hb2', heq'⟩
  · rw [hnull]; rfl
  · rw [heq']
    have hle' : fmtYM a' b' ≤ M :=
      hub _ (List.mem_map.mpr ⟨r, hr, heq'⟩)
    rw [← hMfmt] at hle' ⊢
    by_cases hlt : fmtYM a' b' < fmtYM y m
    · have hne' : fmtYM a' b' ≠ fmtYM y m := fun he => absurd (he ▸ hlt) (lt_irrefl _)
      have hb : strLtB (fmtYM a' b') (fmtYM y m) = true := (strLtB_iff _ _).mpr hlt
      simp [valGe, hb, hne']
    · have he : fmtYM a' b' = fmtYM y m := le_antisymm hle' (le_of_not_lt hlt)
      rw [he]
      have hb : strLtB (fmtYM y m) (fmtYM y m) = false :=
        (strLtB_eq_false_iff _ _).mpr (lt_irrefl _)
      simp [valGe, hb]

/-- Witness for C1 (amended) at a concrete two-row table with `N = 7`. -/
theorem C1_retention_window_witness :
    filter_by_yrmo_retention
        ⟨["YRMO"], [[("YRMO", Value.str "2024-03")], [("YRMO", Value.str "2023-06")]]⟩ 7
      = some ⟨["YRMO"], [[("YRMO", Value.str "2024-03")]]⟩ := by
  have h := C1_retention_window_amended
    ⟨["YRMO"], [[("YRMO", Value.str "2024-03")], [("YRMO", Value.str "2023-06")]]⟩
    7 "2024-03" 2024 3 (by decide) (by decide)
    (by
      intro r hr
      simp only [List.mem_cons, List.not_mem_nil, or_false] at hr
      rcases hr with rfl | rfl
      · exact Or.inr ⟨2024, 3, by decide, by decide, by decide, by decide⟩
      · exact Or.inr ⟨2023, 6, by decide, by decide, by decide, by decide⟩)
    (by decide) (by decide) (by decide)
  exact h.1.trans (by decide)

/-! ## C7: the merge stage -/

/-- A column absent from a row's keys reads as the null marker. -/
theorem row_get_eq_null_of_not_mem_keys (r : Row) (c : String)
    (h : c ∉ r.map Prod.fst) : Row.get r c = Value.null := by
  unfold Row.get
  rw [List.find?_eq_none.mpr]
  · intro p hp
    simp only [decide_eq_true_eq]
    intro hc
    exact h (List.mem_map.mpr ⟨p, hp, hc⟩)

theorem mem_concatCols_aux (css : List (List String)) :
    ∀ (acc : List String) (c : String),
      c ∈ css.foldl (fun acc cs => acc ++ cs.filter (fun c => decide (c ∉ acc))) acc
        ↔ (c ∈ acc ∨ ∃ cs ∈ css, c ∈ cs) := by
  induction css with
  | nil => intro acc c; simp
  | cons cs css ih =>
    intro acc c
    rw [List.foldl_cons, ih]
    simp only [List.mem_append, List.mem_filter, decide_eq_true_eq, List.mem_cons]
    constructor
    · rintro ((h | ⟨h, -⟩) | ⟨cs', h', hc⟩)
      · exact Or.inl h
      · exact Or.inr ⟨cs, Or.inl rfl, h⟩
      · exact Or.inr ⟨cs', Or.inr h', hc⟩
    · by_cases hacc : c ∈ acc
      · intro _; exact Or.inl (Or.inl hacc)
      · rintro (h | ⟨cs', h', hc⟩)
        · exact absurd h hacc
        · rcases h' with rfl | h'
          · exact Or.inl (Or.inr ⟨hc, hacc⟩)
          · exact Or.inr ⟨cs', h', hc⟩

theorem mem_concatCols (css : List (List String)) (c : String) :
    c ∈ concatCols css ↔ ∃ cs ∈ css, c ∈ cs := by
  unfold concatCols
  rw [mem_concatCols_aux]
  simp

/-- **C7.**  The merge stage is a pure union: its rows are exactly the rows
of Events, Edetail, Call and VAE appended in that fixed order with no row
modified (so the row count is the sum of the four, e.g. 2-row and 3-row
inputs yield 5 rows in order); its columns are the union of the four column
sets; and on a well-formed source, a column that source lacks reads as the
null marker on its rows. -/
theorem C7_merge_pure_concat (event edetail call vae : DataFrame)
    (hwE : event.Wf) (hwD : edetail.Wf) (hwC : call.Wf) (hwV : vae.Wf) :
    (hco_run event edetail call vae).rows
        = event.rows ++ edetail.rows ++ call.rows ++ vae.rows
    ∧ (hco_run event edetail call vae).rows.length
        = event.rows.length + edetail.rows.length + call.rows.length + vae.rows.length
    ∧ (∀ r ∈ event.rows, ∀ c, c ∉ event.cols → Row.get r c = Value.null)
    ∧ (∀ r ∈ edetail.rows, ∀ c, c ∉ edetail.cols → Row.get r c = Value.null)
    ∧ (∀ r ∈ call.rows, ∀ c, c ∉ call.cols → Row.get r c = Value.null)
    ∧ (∀ r ∈ vae.rows, ∀ c, c ∉ vae.cols → Row.get r c = Value.null)
    ∧ (∀ c, c ∈ (hco_run event edetail call vae).cols ↔
        c ∈ event.cols ∨ c ∈ edetail.cols ∨ c ∈ call.cols ∨ c ∈ vae.cols) := by
  refine ⟨rfl, by simp [hco_run]; omega, ?_, ?_, ?_, ?_, ?_⟩
  · intro r hr c hc
    exact row_get_eq_null_of_not_mem_keys r c (by rw [hwE r hr]; exact hc)
  · intro r hr c hc
    exact row_get_eq_null_of_not_mem_keys r c (by rw [hwD r hr]; exact hc)
  · intro r hr c hc
    exact row_get_eq_null_of_not_mem_keys r c (by rw [hwC r hr]; exact hc)
  · intro r hr c hc
    exact row_get_eq_null_of_not_mem_keys r c (by rw [hwV r hr]; exact hc)
  · intro c
    show c ∈ concatCols [event.cols, edetail.cols, call.cols, vae.cols] ↔ _
    rw [mem_concatCols]
    simp only [List.mem_cons, List.not_mem_nil, or_false]
    constructor
    · rintro ⟨cs, (rfl | rfl | rfl | rfl), hc⟩
      · exact Or.inl hc
      · exact Or.inr (Or.inl hc)
      · exact Or.inr (Or.inr (Or.inl hc))
      · exact Or.inr (Or.inr (Or.inr hc))
    · rintro (h | h | h | h)
      · exact ⟨event.cols, by simp, h⟩
      · exact ⟨edetail.cols, by simp, h⟩
      · exact ⟨call.cols, by simp, h⟩
      · exact ⟨vae.cols, by simp, h⟩

/-- Witness for C7: concatenating a 2-row table and a 3-row table (and two
empty tables) yields exactly 5 rows, in order. -/
theorem C7_merge_witness :
    (hco_run
      ⟨["HCP_ID"], [[("HCP_ID", Value.str "A1")], [("HCP_ID", Value.str "A2")]]⟩
      ⟨["HCP_ID"], [[("HCP_ID", Value.str "B1")], [("HCP_ID", Value.str "B2")],
        [("HCP_ID", Value.str "B3")]]⟩
      ⟨["HCP_ID"], []⟩ ⟨["HCP_ID"], []⟩).rows.length = 5
    ∧ (hco_run
      ⟨["HCP_ID"], [[("HCP_ID", Value.str "A1")], [("HCP_ID", Value.str "A2")]]⟩
      ⟨["HCP_ID"], [[("HCP_ID", Value.str "B1")], [("HCP_ID", Value.str "B2")],
        [("HCP_ID", Value.str "B3")]]⟩
      ⟨["HCP_ID"], []⟩ ⟨["HCP_ID"], []⟩).rows
      = [[("HCP_ID", Value.str "A1")], [("HCP_ID", Value.str "A2")],
         [("HCP_ID", Value.str "B1")], [("HCP_ID", Value.str "B2")],
         [("HCP_ID", Value.str "B3")]] := by
  have h := C7_merge_pure_concat
    ⟨["HCP_ID"], [[("HCP_ID", Value.str "A1")], [("HCP_ID", Value.str "A2")]]⟩
    ⟨["HCP_ID"], [[("HCP_ID", Value.str "B1")], [("HCP_ID", Value.str "B2")],
      [("HCP_ID", Value.str "B3")]]⟩
    ⟨["HCP_ID"], []⟩ ⟨["HCP_ID"], []⟩
    (by unfold DataFrame.Wf; decide) (by unfold DataFrame.Wf; decide)
    (by unfold DataFrame.Wf; decide) (by unfold DataFrame.Wf; decide)
  exact ⟨h.2.1.trans (by decide), h.1.trans (by decide)⟩

/-! ## C9: the events normalizer drops null channels -/

/-- **C9.**  Every output row of the events normalizer has a non-null
channel, and traces back to an input row whose channel was non-null (rows
with a null channel are excluded by `dropna(subset=["channel"])` before any
other processing; nothing reintroduces or coerces them). -/
theorem C9_events_null_channel_excluded (df : List EventsRow) (cfg : EventsConfig)
    (out : List OutRow) (h : events_run df cfg = some out) :
    ∀ r ∈ out, r.CHANNEL ≠ Value.null
      ∧ ∃ r₀ ∈ df, r₀.channel ≠ Value.null ∧ r.CHANNEL = r₀.channel := by
  intro r hr
  unfold events_run at h
  dsimp only at h
  have hmid := filter_core_subset h r hr
  obtain ⟨r₃, hr₃, rfl⟩ := List.mem_map.mp hmid
  have hr2 : r₃ ∈ (df.filter (fun r => r.channel != Value.null)).map
      (fun r => { r with ACTVY_STRT_DT := to_datetime_value r.ACTVY_STRT_DT }) := by
    rcases hcfg : cfg.product_id with _ | p
    · rw [hcfg] at hr₃; exact hr₃
    · rw [hcfg] at hr₃
      dsimp only at hr₃
      split at hr₃
      · exact List.mem_of_mem_filter hr₃
      · exact hr₃
  obtain ⟨r₁, hr₁, rfl⟩ := List.mem_map.mp hr2
  have hfil := List.mem_filter.mp hr₁
  have hch : r₁.channel ≠ Value.null := by
    have := hfil.2
    simpa using this
  exact ⟨hch, r₁, hfil.1, hch, rfl⟩

/-- Witness for C9: a two-row input where the null-channel row disappears
and the non-null-channel row survives to the output. -/
theorem C9_events_witness :
    events_run
        [⟨Value.null, Value.str "C1", Value.str "H1", Value.str "P1", Value.str "I1",
            Value.str "Attended", Value.str "2024-03-15"⟩,
          ⟨Value.str "CONF", Value.str "C2", Value.str "H2", Value.str "P1", Value.str "I1",
            Value.str "Attended", Value.str "2024-03-15"⟩] ⟨none, none⟩
      = some [⟨Value.str "H2", Value.date 2024 3 15, Value.str "2024-03", Value.str "C2",
          Value.str "CONF", Value.str "Attended"⟩]
    ∧ (⟨Value.str "H2", Value.date 2024 3 15, Value.str "2024-03", Value.str "C2",
          Value.str "CONF", Value.str "Attended"⟩ : OutRow).CHANNEL ≠ Value.null := by
  refine ⟨by decide, ?_⟩
  exact (C9_events_null_channel_excluded
    [⟨Value.null, Value.str "C1", Value.str "H1", Value.str "P1", Value.str "I1",
        Value.str "Attended", Value.str "2024-03-15"⟩,
      ⟨Value.str "CONF", Value.str "C2", Value.str "H2", Value.str "P1", Value.str "I1",
        Value.str "Attended", Value.str "2024-03-15"⟩] ⟨none, none⟩
    [⟨Value.str "H2", Value.date 2024 3 15, Value.str "2024-03", Value.str "C2",
        Value.str "CONF", Value.str "Attended"⟩] (by decide)
    ⟨Value.str "H2", Value.date 2024 3 15, Value.str "2024-03", Value.str "C2",
        Value.str "CONF", Value.str "Attended"⟩ (by decide)).1

/-! ## C8: the VAE normalizer -/

/-- **C8.**  Every output row of the VAE normalizer carries the constant
channel `"LMMR"`, and on the spec's example row `{customer_id: "H1",
activity_date: "2024-03-15", sevc_id: "S1", action: "Viewed",
product_id: "P1"}` with a matching product filter the output is exactly the
claimed canonical row. -/
theorem C8_vae_channel_constant :
    (∀ (df : List VaeRow) (cfg : VaeConfig) (out : List OutRow),
      vae_run df cfg = some out → ∀ r ∈ out, r.CHANNEL = Value.str "LMMR")
    ∧ vae_run
        [⟨Value.str "H1", Value.str "2024-03-15", Value.str "S1", Value.str "Viewed",
            Value.str "P1"⟩] ⟨some (Value.str "P1"), none⟩
      = some [⟨Value.str "H1", Value.str "2024-03-15", Value.str "2024-03", Value.str "S1",
          Value.str "LMMR", Value.str "Viewed"⟩] := by
  constructor
  · intro df cfg out h r hr
    unfold vae_run at h
    dsimp only at h
    have hmid := filter_core_subset h r hr
    obtain ⟨r₀, _, rfl⟩ := List.mem_map.mp hmid
    rfl
  · decide

/-- Witness for the universal half of C8 at the example input. -/
theorem C8_vae_channel_witness :
    (⟨Value.str "H1", Value.str "2024-03-15", Value.str "2024-03", Value.str "S1",
        Value.str "LMMR", Value.str "Viewed"⟩ : OutRow).CHANNEL = Value.str "LMMR" :=
  C8_vae_channel_constant.1
    [⟨Value.str "H1", Value.str "2024-03-15", Value.str "S1", Value.str "Viewed",
        Value.str "P1"⟩] ⟨some (Value.str "P1"), none⟩
    [⟨Value.str "H1", Value.str "2024-03-15", Value.str "2024-03", Value.str "S1",
        Value.str "LMMR", Value.str "Viewed"⟩] (by decide)
    ⟨Value.str "H1", Value.str "2024-03-15", Value.str "2024-03", Value.str "S1",
        Value.str "LMMR", Value.str "Viewed"⟩ (by decide)

/-! ## C6: the YRMO derivation invariant -/

/-- **C6.**  In every output row of every normalizer (Call, Events, VAE,
Edetail), the `YRMO` cell equals `yrmoValue` of that same row's
`ACTIVITY_DATE` cell — the `"YYYY-MM"` truncation of the row's own
activity date (with the `"NaT"` sentinel for null/unparseable dates) —
for every input table and configuration. -/
theorem C6_yrmo_derived_invariant :
    (∀ (df : List CallRow) (cfg : CallConfig) (out : List OutRow),
      call_run df cfg = some out → ∀ r ∈ out, r.YRMO = yrmoValue r.ACTIVITY_DATE)
    ∧ (∀ (df : List EventsRow) (cfg : EventsConfig) (out : List OutRow),
      events_run df cfg = some out → ∀ r ∈ out, r.YRMO = yrmoValue r.ACTIVITY_DATE)
    ∧ (∀ (df : List VaeRow) (cfg : VaeConfig) (out : List OutRow),
      vae_run df cfg = some out → ∀ r ∈ out, r.YRMO = yrmoValue r.ACTIVITY_DATE)
    ∧ (∀ (df : List EdetailRow) (cfg : EdetailConfig) (out : List OutRow),
      edetail_run df cfg = some out → ∀ r ∈ out, r.YRMO = yrmoValue r.ACTIVITY_DATE) := by
  refine ⟨?_, ?_, ?_, ?_⟩
  · intro df cfg out h r hr
    unfold call_run at h
    dsimp only at h
    obtain ⟨r₀, _, rfl⟩ := List.mem_map.mp (filter_core_subset h r hr)
    rfl
  · intro df cfg out h r hr
    unfold events_run at h
    dsimp only at h
    obtain ⟨r₀, _, rfl⟩ := List.mem_map.mp (filter_core_subset h r hr)
    rfl
  · intro df cfg out h r hr
    unfold vae_run at h
    dsimp only at h
    obtain ⟨r₀, _, rfl⟩ := List.mem_map.mp (filter_core_subset h r hr)
    rfl
  · intro df cfg out h r hr
    unfold edetail_run at h
    dsimp only at h
    rw [Option.map_eq_some'] at h
    obtain ⟨kept, hk, rfl⟩ := h
    obtain ⟨rm, hrm, rfl⟩ := List.mem_map.mp hr
    have hrm2 : rm ∈ kept := by
      unfold delivered_linkage at hrm
      dsimp only at hrm
      exact List.mem_of_mem_filter hrm
    obtain ⟨b, _, rfl⟩ := List.mem_map.mp (filter_core_subset hk rm hrm2)
    rfl

/-- Witness for C6 across all four normalizers at concrete inputs. -/
theorem C6_yrmo_derived_witness :
    (⟨Value.str "H1", Value.date 2024 3 15, Value.str "2024-03", Value.str "C1",
        Value.str "CALL", Value.str "Detail"⟩ : OutRow).YRMO
      = yrmoValue (Value.date 2024 3 15)
    ∧ (⟨Value.str "H2", Value.date 2024 3 15, Value.str "2024-03", Value.str "C2",
        Value.str "CONF", Value.str "Attended"⟩ : OutRow).YRMO
      = yrmoValue (Value.date 2024 3 15)
    ∧ (⟨Value.str "H1", Value.str "2024-03-15", Value.str "2024-03", Value.str "S1",
        Value.str "LMMR", Value.str "Viewed"⟩ : OutRow).YRMO
      = yrmoValue (Value.str "2024-03-15")
    ∧ (⟨Value.str "H1", Value.str "2024-03-15", Value.str "2024-03", Value.str "D1",
        Value.str "EDETAIL_CARENET", Value.str "Delivered"⟩ : OutRow).YRMO
      = yrmoValue (Value.str "2024-03-15") := by
  refine ⟨?_, ?_, ?_, ?_⟩
  · exact C6_yrmo_derived_invariant.1
      [⟨Value.str "P1", Value.str "2024-03-15", Value.str "H1", Value.str "C1",
          Value.str "CALL", Value.str "Detail"⟩] ⟨none, none⟩
      [⟨Value.str "H1", Value.date 2024 3 15, Value.str "2024-03", Value.str "C1",
          Value.str "CALL", Value.str "Detail"⟩] (by decide) _ (by decide)
  · exact C6_yrmo_derived_invariant.2.1
      [⟨Value.str "CONF", Value.str "C2", Value.str "H2", Value.str "P1", Value.str "I1",
          Value.str "Attended", Value.str "2024-03-15"⟩] ⟨none, none⟩
      [⟨Value.str "H2", Value.date 2024 3 15, Value.str "2024-03", Value.str "C2",
          Value.str "CONF", Value.str "Attended"⟩] (by decide) _ (by decide)
  · exact C6_yrmo_derived_invariant.2.2.1
      [⟨Value.str "H1", Value.str "2024-03-15", Value.str "S1", Value.str "Viewed",
          Value.str "P1"⟩] ⟨none, none⟩
      [⟨Value.str "H1", Value.str "2024-03-15", Value.str "2024-03", Value.str "S1",
          Value.str "LMMR", Value.str "Viewed"⟩] (by decide) _ (by decide)
  · exact C6_yrmo_derived_invariant.2.2.2
      [⟨Value.str "CARENET", Value.str "D1", Value.str "Sent", Value.str "2024-03-15",
          Value.str "H1", Value.str "I1", Value.str "EBG"⟩,
        ⟨Value.str "CARENET", Value.str "D1", Value.str "Opened", Value.str "2024-03-15",
          Value.str "H1", Value.str "I1", Value.str "EBG"⟩] ⟨none, none⟩
      [⟨Value.str "H1", Value.str "2024-03-15", Value.str "2024-03", Value.str "D1",
          Value.str "EDETAIL_CARENET", Value.str "Delivered"⟩,
        ⟨Value.str "H1", Value.str "2024-03-15", Value.str "2024-03", Value.str "D1",
          Value.str "EDETAIL_CARENET", Value.str "Opened"⟩] (by decide) _ (by decide)

/-! ## C5: the delivered-linkage filter -/

/-- **C5.**  In the edetail pipeline's final step, a row of the combined
retention-filtered table is kept iff its `ID` also appears on some
`Delivered`-action row of that table; on the spec's example
`{(ID 1, Delivered), (ID 1, Opened), (ID 2, Opened)}` both `ID 1` rows are
retained and the `ID 2` row is dropped. -/
theorem C5_delivered_linkage_filter :
    (∀ (rows : List MidRow) (r : MidRow),
      r ∈ delivered_linkage rows
        ↔ r ∈ rows ∧ ∃ d ∈ rows, d.ACTION = Value.str "Delivered" ∧ d.ID = r.ID)
    ∧ delivered_linkage
        [⟨Value.str "2024-03-15", Value.str "H1", Value.str "1", Value.str "EDETAIL_CARENET",
            Value.str "Delivered", Value.str "EBG", Value.str "2024-03"⟩,
          ⟨Value.str "2024-03-15", Value.str "H1", Value.str "1", Value.str "EDETAIL_CARENET",
            Value.str "Opened", Value.str "EBG", Value.str "2024-03"⟩,
          ⟨Value.str "2024-03-15", Value.str "H2", Value.str "2", Value.str "EDETAIL_CARENET",
            Value.str "Opened", Value.str "EBG", Value.str "2024-03"⟩]
      = [⟨Value.str "2024-03-15", Value.str "H1", Value.str "1", Value.str "EDETAIL_CARENET",
            Value.str "Delivered", Value.str "EBG", Value.str "2024-03"⟩,
          ⟨Value.str "2024-03-15", Value.str "H1", Value.str "1", Value.str "EDETAIL_CARENET",
            Value.str "Opened", Value.str "EBG", Value.str "2024-03"⟩] := by
  constructor
  · intro rows r
    unfold delivered_linkage
    dsimp only
    rw [List.mem_filter]
    refine and_congr_right fun _ => ?_
    constructor
    · intro hc
      have hmem : r.ID ∈ (rows.filter
          (fun d => d.ACTION == Value.str "Delivered")).map (fun d => d.ID) :=
        List.elem_iff.mp hc
      obtain ⟨d, hd, hid⟩ := List.mem_map.mp hmem
      have hdf := List.mem_filter.mp hd
      exact ⟨d, hdf.1, by simpa using hdf.2, hid⟩
    · rintro ⟨d, hd, hact, hid⟩
      have hmem : r.ID ∈ (rows.filter
          (fun d => d.ACTION == Value.str "Delivered")).map (fun d => d.ID) :=
        List.mem_map.mpr ⟨d, List.mem_filter.mpr ⟨hd, by simp [hact]⟩, hid⟩
      exact List.elem_iff.mpr hmem
  · decide

/-- Witness for the universal half of C5 at the example table. -/
theorem C5_delivered_linkage_witness :
    (⟨Value.str "2024-03-15", Value.str "H1", Value.str "1", Value.str "EDETAIL_CARENET",
        Value.str "Opened", Value.str "EBG", Value.str "2024-03"⟩ : MidRow)
      ∈ delivered_linkage
        [⟨Value.str "2024-03-15", Value.str "H1", Value.str "1", Value.str "EDETAIL_CARENET",
            Value.str "Delivered", Value.str "EBG", Value.str "2024-03"⟩,
          ⟨Value.str "2024-03-15", Value.str "H1", Value.str "1", Value.str "EDETAIL_CARENET",
            Value.str "Opened", Value.str "EBG", Value.str "2024-03"⟩,
          ⟨Value.str "2024-03-15", Value.str "H2", Value.str "2", Value.str "EDETAIL_CARENET",
            Value.str "Opened", Value.str "EBG", Value.str "2024-03"⟩] := by
  apply (C5_delivered_linkage_filter.1 _ _).mpr
  refine ⟨by decide, ?_⟩
  exact ⟨⟨Value.str "2024-03-15", Value.str "H1", Value.str "1", Value.str "EDETAIL_CARENET",
      Value.str "Delivered", Value.str "EBG", Value.str "2024-03"⟩, by decide, rfl, rfl⟩

/-! ## C4: the ecare builder's exact-one thresholds -/

theorem mem_insertLe {α : Type} (le : α → α → Bool) (x a : α) :
    ∀ l : List α, (a ∈ insertLe le x l ↔ a = x ∨ a ∈ l)
  | [] => by simp [insertLe]
  | y :: ys => by
    unfold insertLe
    split
    · simp
    · rw [List.mem_cons, mem_insertLe le x a ys, List.mem_cons]
      tauto

theorem mem_sortLe {α : Type} (le : α → α → Bool) (a : α) :
    ∀ l : List α, (a ∈ sortLe le l ↔ a ∈ l)
  | [] => Iff.rfl
  | x :: xs => by
    unfold sortLe
    rw [mem_insertLe, mem_sortLe le a xs, List.mem_cons]

/-- A key appears in the pivot index iff some row of the pivoted table
carries it (with no null component). -/
theorem mem_pivotKeys (rows : List NormRow) (k : EKey) :
    k ∈ pivotKeys rows ↔ ∃ r ∈ rows, keyOk (ekey r) = true ∧ ekey r = k := by
  unfold pivotKeys
  rw [List.mem_dedup, mem_sortLe]
  simp only [List.mem_map, List.mem_filter]
  constructor
  · rintro ⟨r, ⟨hr, hok⟩, hek⟩
    exact ⟨r, hr, hok, hek⟩
  · rintro ⟨r, hr, hok, hek⟩
    exact ⟨r, ⟨hr, hok⟩, hek⟩

theorem pivotKeys_nodup (rows : List NormRow) : (pivotKeys rows).Nodup :=
  List.nodup_dedup _

/-- Filtering a map over distinct keys with a predicate that pins the key:
at most the image of that one key survives. -/
theorem filter_map_keyed {α β : Type} [DecidableEq α] (g : α → β) (keyOf : β → α)
    (hgk : ∀ a, keyOf (g a) = a) (k : α) (q : β → Bool)
    (hq : ∀ x, q x = true → keyOf x = k) :
    ∀ keys : List α, keys.Nodup →
      (keys.map g).filter q = if k ∈ keys ∧ q (g k) = true then [g k] else []
  | [], _ => by simp
  | a :: as, hnd => by
    rcases List.nodup_cons.mp hnd with ⟨hna, hnd'⟩
    simp only [List.map_cons, List.filter_cons]
    by_cases hqa : q (g a) = true
    · have hak : a = k := (hgk a) ▸ hq _ hqa
      subst hak
      rw [if_pos hqa, if_pos ⟨List.mem_cons_self a as, hqa⟩,
        filter_map_keyed g keyOf hgk a q hq as hnd', if_neg (fun h => hna h.1)]
    · rw [if_neg hqa, filter_map_keyed g keyOf hgk k q hq as hnd']
      by_cases hk2 : k ∈ as ∧ q (g k) = true
      · rw [if_pos hk2, if_pos ⟨List.mem_cons_of_mem _ hk2.1, hk2.2⟩]
      · rw [if_neg hk2, if_neg ?_]
        intro hcon
        rcases List.mem_cons.mp hcon.1 with rfl | hmem
        · exact hqa hcon.2
        · exact hk2 ⟨hmem, hcon.2⟩

/-- The one surviving melt row when the key is present and its derived
action is non-trivial. -/
theorem filter_map_keyed_pos {α β : Type} [DecidableEq α] (g : α → β) (keyOf : β → α)
    (hgk : ∀ a, keyOf (g a) = a) (k : α) (q : β → Bool)
    (hq : ∀ x, q x = true → keyOf x = k)
    (keys : List α) (hnd : keys.Nodup) (hin : k ∈ keys) (hqk : q (g k) = true) :
    (keys.map g).filter q = [g k] := by
  rw [filter_map_keyed g keyOf hgk k q hq keys hnd, if_pos ⟨hin, hqk⟩]

/-- No melt row survives when the pinned key's own image fails the
predicate. -/
theorem filter_map_keyed_none {α β : Type} [DecidableEq α] (g : α → β) (keyOf : β → α)
    (hgk : ∀ a, keyOf (g a) = a) (k : α) (q : β → Bool)
    (hq : ∀ x, q x = true → keyOf x = k)
    (keys : List α) (hnd : keys.Nodup) (hqk : q (g k) = false) :
    (keys.map g).filter q = [] := by
  rw [filter_map_keyed g keyOf hgk k q hq keys hnd,
    if_neg (fun hc => by rw [hqk] at hc; exact Bool.false_ne_true hc.2)]

/-- A positive action count exhibits a row of the group. -/
theorem exists_row_of_countAction_pos (rows : List NormRow) (k : EKey) (a : String)
    (h : 0 < countAction rows k a) : ∃ r ∈ rows, ekey r = k := by
  unfold countAction at h
  rcases hl : (rows.filter (fun r =>
      ekey r == k && r.ACTION == Value.str a && r.PRODUCT_NM != Value.null)) with _ | ⟨r, l⟩
  · rw [hl] at h; simp at h
  · have hr : r ∈ rows.filter (fun r =>
        ekey r == k && r.ACTION == Value.str a && r.PRODUCT_NM != Value.null) := by
      rw [hl]; exact List.mem_cons_self r l
    have := (List.mem_filter.mp hr).2
    simp only [Bool.and_eq_true, beq_iff_eq] at this
    exact ⟨r, (List.mem_filter.mp hr).1, this.1.1⟩

/-- **C4.**  In the ecare builder, for every group key (no null component)
over the two ecare channels: exactly one `Delivered` and exactly one
`Opened` raw action produce exactly the two output rows `Delivered` then
`Opened`; a `Delivered` count of two produces no `Delivered`-action row for
the group; a group meeting neither exact-one condition produces no rows;
and the output never contains duplicate rows. -/
theorem C4_ecare_exact_one_thresholds (edetail : List NormRow) (p : String) (k : EKey)
    (hk : keyOk k = true) :
    (countAction (edetail.filter isEcareChannel) k "Delivered" = 1 →
      countAction (edetail.filter isEcareChannel) k "Opened" = 1 →
      (_build_ecare edetail p).filter (fun r => bkey r == k)
        = [mkBuildRow k p "Delivered", mkBuildRow k p "Opened"])
    ∧ (countAction (edetail.filter isEcareChannel) k "Delivered" = 2 →
      (_build_ecare edetail p).filter
          (fun r => bkey r == k && r.ACTION == Value.str "Delivered") = [])
    ∧ (countAction (edetail.filter isEcareChannel) k "Delivered" ≠ 1 →
      countAction (edetail.filter isEcareChannel) k "Opened" ≠ 1 →
      (_build_ecare edetail p).filter (fun r => bkey r == k) = [])
    ∧ (_build_ecare edetail p).Nodup := by
  by_cases h0 : (edetail.filter isEcareChannel).isEmpty = true
  · have hE : edetail.filter isEcareChannel = [] := List.isEmpty_iff.mp h0
    have hout : _build_ecare edetail p = [] := by
      unfold _build_ecare
      rw [if_pos h0]
    have hcnt : ∀ a, countAction (edetail.filter isEcareChannel) k a = 0 := by
      intro a
      unfold countAction
      rw [hE]
      rfl
    refine ⟨?_, ?_, ?_, ?_⟩
    · intro hD; rw [hcnt] at hD; exact absurd hD (by decide)
    · intro hD; rw [hcnt] at hD; exact absurd hD (by decide)
    · intro _ _; rw [hout]; rfl
    · rw [hout]; exact List.nodup_nil
  · have hout : _build_ecare edetail p =
        ((((pivotKeys (edetail.filter isEcareChannel)).map (fun k => MeltRow.mk k "EXP"
            (if countAction (edetail.filter isEcareChannel) k "Delivered" = 1
              then "Delivered" else ""))
          ++ (pivotKeys (edetail.filter isEcareChannel)).map (fun k => MeltRow.mk k "ENG1"
            (if countAction (edetail.filter isEcareChannel) k "Opened" = 1
              then "Opened" else ""))).filter
            (fun x => x.ACTION ≠ "")).dedup).map
          (fun x => mkBuildRow x.key p x.ACTION) := by
      unfold _build_ecare
      rw [if_neg h0]
    have hmN : ((pivotKeys (edetail.filter isEcareChannel)).map (fun k => MeltRow.mk k "EXP"
          (if countAction (edetail.filter isEcareChannel) k "Delivered" = 1
            then "Delivered" else ""))
        ++ (pivotKeys (edetail.filter isEcareChannel)).map (fun k => MeltRow.mk k "ENG1"
          (if countAction (edetail.filter isEcareChannel) k "Opened" = 1
            then "Opened" else ""))).Nodup := by
      refine List.Nodup.append
        (List.Nodup.map ?_ (pivotKeys_nodup _)) (List.Nodup.map ?_ (pivotKeys_nodup _)) ?_
      · intro k1 k2 h
        exact congrArg MeltRow.key h
      · intro k1 k2 h
        exact congrArg MeltRow.key h
      · intro x hx1 hx2
        obtain ⟨k1, _, rfl⟩ := List.mem_map.mp hx1
        obtain ⟨k2, _, hx⟩ := List.mem_map.mp hx2
        have := congrArg MeltRow.ACTION2 hx
        simp at this
    have hkN := List.Nodup.filter (fun x => decide (x.ACTION ≠ "")) hmN
    have hdid := List.dedup_eq_self.mpr hkN
    rw [hdid] at hout
    have hkin : ∀ a, 0 < countAction (edetail.filter isEcareChannel) k a →
        k ∈ pivotKeys (edetail.filter isEcareChannel) := by
      intro a ha
      obtain ⟨r, hr, hek⟩ := exists_row_of_countAction_pos _ k a ha
      exact (mem_pivotKeys _ k).mpr ⟨r, hr, by rw [hek]; exact hk, hek⟩
    refine ⟨?_, ?_, ?_, ?_⟩
    · intro hD hO
      rw [hout, List.filter_map]
      have hcomp : ((fun r => bkey r == k) ∘ (fun x => mkBuildRow x.key p x.ACTION))
          = fun x : MeltRow => x.key == k := by
        funext x
        rfl
      rw [hcomp, List.filter_filter, List.filter_append]
      rw [filter_map_keyed_pos _ MeltRow.key (fun _ => rfl) k _
        (fun x hx => by
          simp only [Bool.and_eq_true, beq_iff_eq] at hx
          exact hx.1) _ (pivotKeys_nodup _) (hkin "Delivered" (by omega)) (by simp [hD])]
      rw [filter_map_keyed_pos _ MeltRow.key (fun _ => rfl) k _
        (fun x hx => by
          simp only [Bool.and_eq_true, beq_iff_eq] at hx
          exact hx.1) _ (pivotKeys_nodup _) (hkin "Opened" (by omega)) (by simp [hO])]
      simp [hD, hO]
    · intro hD
      rw [hout, List.filter_map]
      have hcomp : ((fun r => bkey r == k && r.ACTION == Value.str "Delivered")
            ∘ (fun x => mkBuildRow x.key p x.ACTION))
          = fun x : MeltRow => x.key == k && (Value.str x.ACTION == Value.str "Delivered") := by
        funext x
        rfl
      rw [hcomp, List.filter_filter, List.filter_append]
      rw [filter_map_keyed_none _ MeltRow.key (fun _ => rfl) k _
        (fun x hx => by
          simp only [Bool.and_eq_true, beq_iff_eq] at hx
          exact hx.1.1) _ (pivotKeys_nodup _) ?hql]
      case hql =>
        have hact : (if countAction (edetail.filter isEcareChannel) k "Delivered" = 1
            then "Delivered" else "") = "" := if_neg (by omega)
        simp [hact]
      rw [filter_map_keyed_none _ MeltRow.key (fun _ => rfl) k _
        (fun x hx => by
          simp only [Bool.and_eq_true, beq_iff_eq] at hx
          exact hx.1.1) _ (pivotKeys_nodup _) ?hqr]
      case hqr =>
        by_cases hOc : countAction (edetail.filter isEcareChannel) k "Opened" = 1
        · simp [hOc]
        · simp [hOc]
      rfl
    · intro hD hO
      rw [hout, List.filter_map]
      have hcomp : ((fun r => bkey r == k) ∘ (fun x => mkBuildRow x.key p x.ACTION))
          = fun x : MeltRow => x.key == k := by
        funext x
        rfl
      rw [hcomp, List.filter_filter, List.filter_append]
      rw [filter_map_keyed_none _ MeltRow.key (fun _ => rfl) k _
        (fun x hx => by
          simp only [Bool.and_eq_true, beq_iff_eq] at hx
          exact hx.1) _ (pivotKeys_nodup _) (by simp [hD])]
      rw [filter_map_keyed_none _ MeltRow.key (fun _ => rfl) k _
        (fun x hx => by
          simp only [Bool.and_eq_true, beq_iff_eq] at hx
          exact hx.1) _ (pivotKeys_nodup _) (by simp [hO])]
      rfl
    · rw [hout]
      refine List.Nodup.map_on ?_ hkN
      intro x hx y hy hxy
      have hxm := List.mem_filter.mp hx
      have hym := List.mem_filter.mp hy
      have hxc : (x.ACTION2 = "EXP" ∧ x.ACTION = "Delivered")
          ∨ (x.ACTION2 = "ENG1" ∧ x.ACTION = "Opened") := by
        rcases List.mem_append.mp hxm.1 with hm | hm
        · obtain ⟨k1, _, rfl⟩ := List.mem_map.mp hm
          left
          refine ⟨rfl, ?_⟩
          have hne := hxm.2
          simp only [decide_eq_true_eq] at hne
          by_cases hc : countAction (edetail.filter isEcareChannel) k1 "Delivered" = 1
          · simp [hc]
          · exact absurd (by simp [hc]) hne
        · obtain ⟨k1, _, rfl⟩ := List.mem_map.mp hm
          right
          refine ⟨rfl, ?_⟩
          have hne := hxm.2
          simp only [decide_eq_true_eq] at hne
          by_cases hc : countAction (edetail.filter isEcareChannel) k1 "Opened" = 1
          · simp [hc]
          · exact absurd (by simp [hc]) hne
      have hyc : (y.ACTION2 = "EXP" ∧ y.ACTION = "Delivered")
          ∨ (y.ACTION2 = "ENG1" ∧ y.ACTION = "Opened") := by
        rcases List.mem_append.mp hym.1 with hm | hm
        · obtain ⟨k1, _, rfl⟩ := List.mem_map.mp hm
          left
          refine ⟨rfl, ?_⟩
          have hne := hym.2
          simp only [decide_eq_true_eq] at hne
          by_cases hc : countAction (edetail.filter isEcareChannel) k1 "Delivered" = 1
          · simp [hc]
          · exact absurd (by simp [hc]) hne
        · obtain ⟨k1, _, rfl⟩ := List.mem_map.mp hm
          right
          refine ⟨rfl, ?_⟩
          have hne := hym.2
          simp only [decide_eq_true_eq] at hne
          by_cases hc : countAction (edetail.filter isEcareChannel) k1 "Opened" = 1
          · simp [hc]
          · exact absurd (by simp [hc]) hne
      have hkeq : x.key = y.key := by
        have h2 := congrArg bkey hxy
        simpa [mkBuildRow, bkey] using h2
      have hact : x.ACTION = y.ACTION := by
        have h2 := congrArg BuildRow.ACTION hxy
        simpa [mkBuildRow] using h2
      have htag : x.ACTION2 = y.ACTION2 := by
        rcases hxc with ⟨hx2, hxa⟩ | ⟨hx2, hxa⟩ <;> rcases hyc with ⟨hy2, hya⟩ | ⟨hy2, hya⟩
        · rw [hx2, hy2]
        · rw [hxa, hya] at hact; exact absurd hact (by decide)
        · rw [hxa, hya] at hact; exact absurd hact (by decide)
        · rw [hx2, hy2]
      calc x = ⟨x.key, x.ACTION2, x.ACTION⟩ := rfl
        _ = ⟨y.key, y.ACTION2, y.ACTION⟩ := by rw [hkeq, htag, hact]
        _ = y := rfl

/-- Witness for C4: a group with one `Delivered` and one `Opened` row, and
a second group with two `Delivered` rows. -/
theorem C4_ecare_exact_one_witness :
    (_build_ecare
        [⟨Value.str "EDETAIL_CARENET", Value.str "D1", Value.str "Delivered",
            Value.str "2024-03-15", Value.str "H1", Value.str "I1", Value.str "EBG"⟩,
          ⟨Value.str "EDETAIL_CARENET", Value.str "D1", Value.str "Opened",
            Value.str "2024-03-15", Value.str "H1", Value.str "I1", Value.str "EBG"⟩,
          ⟨Value.str "EDETAIL_CARENET", Value.str "D2", Value.str "Delivered",
            Value.str "2024-03-15", Value.str "H1", Value.str "I1", Value.str "EBG"⟩,
          ⟨Value.str "EDETAIL_CARENET", Value.str "D2", Value.str "Delivered",
            Value.str "2024-03-15", Value.str "H1", Value.str "I1", Value.str "EBG"⟩] "EBG").filter
        (fun r => bkey r == (Value.str "2024-03-15", Value.str "H1", Value.str "D1",
          Value.str "EDETAIL_CARENET"))
      = [mkBuildRow (Value.str "2024-03-15", Value.str "H1", Value.str "D1",
            Value.str "EDETAIL_CARENET") "EBG" "Delivered",
          mkBuildRow (Value.str "2024-03-15", Value.str "H1", Value.str "D1",
            Value.str "EDETAIL_CARENET") "EBG" "Opened"]
    ∧ (_build_ecare
        [⟨Value.str "EDETAIL_CARENET", Value.str "D1", Value.str "Delivered",
            Value.str "2024-03-15", Value.str "H1", Value.str "I1", Value.str "EBG"⟩,
          ⟨Value.str "EDETAIL_CARENET", Value.str "D1", Value.str "Opened",
            Value.str "2024-03-15", Value.str "H1", Value.str "I1", Value.str "EBG"⟩,
          ⟨Value.str "EDETAIL_CARENET", Value.str "D2", Value.str "Delivered",
            Value.str "2024-03-15", Value.str "H1", Value.str "I1", Value.str "EBG"⟩,
          ⟨Value.str "EDETAIL_CARENET", Value.str "D2", Value.str "Delivered",
            Value.str "2024-03-15", Value.str "H1", Value.str "I1", Value.str "EBG"⟩] "EBG").filter
        (fun r => bkey r == (Value.str "2024-03-15", Value.str "H1", Value.str "D2",
            Value.str "EDETAIL_CARENET")
          && r.ACTION == Value.str "Delivered")
      = [] := by
  constructor
  · exact (C4_ecare_exact_one_thresholds
      [⟨Value.str "EDETAIL_CARENET", Value.str "D1", Value.str "Delivered",
          Value.str "2024-03-15", Value.str "H1", Value.str "I1", Value.str "EBG"⟩,
        ⟨Value.str "EDETAIL_CARENET", Value.str "D1", Value.str "Opened",
          Value.str "2024-03-15", Value.str "H1", Value.str "I1", Value.str "EBG"⟩,
        ⟨Value.str "EDETAIL_CARENET", Value.str "D2", Value.str "Delivered",
          Value.str "2024-03-15", Value.str "H1", Value.str "I1", Value.str "EBG"⟩,
        ⟨Value.str "EDETAIL_CARENET", Value.str "D2", Value.str "Delivered",
          Value.str "2024-03-15", Value.str "H1", Value.str "I1", Value.str "EBG"⟩] "EBG"
      (Value.str "2024-03-15", Value.str "H1", Value.str "D1", Value.str "EDETAIL_CARENET")
      (by decide)).1 (by decide) (by decide)
  · exact (C4_ecare_exact_one_thresholds
      [⟨Value.str "EDETAIL_CARENET", Value.str "D1", Value.str "Delivered",
          Value.str "2024-03-15", Value.str "H1", Value.str "I1", Value.str "EBG"⟩,
        ⟨Value.str "EDETAIL_CARENET", Value.str "D1", Value.str "Opened",
          Value.str "2024-03-15", Value.str "H1", Value.str "I1", Value.str "EBG"⟩,
        ⟨Value.str "EDETAIL_CARENET", Value.str "D2", Value.str "Delivered",
          Value.str "2024-03-15", Value.str "H1", Value.str "I1", Value.str "EBG"⟩,
        ⟨Value.str "EDETAIL_CARENET", Value.str "D2", Value.str "Delivered",
          Value.str "2024-03-15", Value.str "H1", Value.str "I1", Value.str "EBG"⟩] "EBG"
      (Value.str "2024-03-15", Value.str "H1", Value.str "D2", Value.str "EDETAIL_CARENET")
      (by decide)).2.1 (by decide)

/-! ## C10: the edetail normalization step -/

/-- **C10.**  The edetail normalization step maps every row through
`Sent → Delivered` on `ACTION` and the fixed `CHANNEL_MAPPING` lookup on
`CHANNEL` (renaming the seven columns and normalizing the date), then keeps
only rows of the configured product: its output is exactly the filtered
rowwise transform.  The lookup has the eight coded entries, any other
channel value passes through unchanged, and the pipeline defaults the
product name to `"EBG"` when the configuration omits it. -/
theorem C10_edetail_normalize_spec :
    (∀ (df : List EdetailRow) (p : String), p ≠ "" →
      _normalize_edetail df p
        = (df.map (fun r => (⟨replaceVia CHANNEL_MAPPING r.src_systm_cd, r.dgtl_dtl_only_id,
            replaceVia [("Sent", "Delivered")] r.action, dateToYMDStr r.activity_date,
            r.customer_id, r.product_indication_id, r.product_name⟩ : NormRow))).filter
          (fun r => r.PRODUCT_NM == Value.str p))
    ∧ (replaceVia CHANNEL_MAPPING (Value.str "M3") = Value.str "EMAIL_M3_MR_KUN"
      ∧ replaceVia CHANNEL_MAPPING (Value.str "M3-Quiz") = Value.str "EMAIL_M3_QUIZ"
      ∧ replaceVia CHANNEL_MAPPING (Value.str "M3-MM") = Value.str "EMAIL_M3_MM"
      ∧ replaceVia CHANNEL_MAPPING (Value.str "NMO") = Value.str "EDETAIL_NMO"
      ∧ replaceVia CHANNEL_MAPPING (Value.str "M3-OPD") = Value.str "EMAIL_M3_OPD"
      ∧ replaceVia CHANNEL_MAPPING (Value.str "CARENET") = Value.str "EDETAIL_CARENET"
      ∧ replaceVia CHANNEL_MAPPING (Value.str "JSTREAM") = Value.str "EDETAIL_JSTREAM"
      ∧ replaceVia CHANNEL_MAPPING (Value.str "Medpeer") = Value.str "EDETAIL_MEDPEER")
    ∧ (∀ v : Value, (∀ e ∈ CHANNEL_MAPPING, v ≠ Value.str e.1) →
      replaceVia CHANNEL_MAPPING v = v)
    ∧ (∀ (df : List EdetailRow) (m : Option Int),
      edetail_run df ⟨none, m⟩ = edetail_run df ⟨some "EBG", m⟩) := by
  refine ⟨?_, by decide, ?_, ?_⟩
  · intro df p hp
    unfold _normalize_edetail
    dsimp only
    rw [if_pos hp]
    rw [List.map_map, List.map_map, List.map_map]
    rfl
  · intro v hv
    unfold replaceVia
    cases v with
    | null => rfl
    | date y m d => rfl
    | str s =>
      dsimp only
      rw [List.find?_eq_none.mpr]
      intro e he
      simp only [decide_eq_true_eq]
      intro hc
      exact hv e he (by rw [hc])
  · intro df m
    rfl

/-- Witness for C10 at a concrete table (with a `Sent` action, a mapped and
an unmapped channel) and an unmapped channel value. -/
theorem C10_edetail_normalize_witness :
    _normalize_edetail
        [⟨Value.str "CARENET", Value.str "D1", Value.str "Sent", Value.str "2024-03-15",
            Value.str "H1", Value.str "I1", Value.str "EBG"⟩,
          ⟨Value.str "ZZZ", Value.str "D2", Value.str "Opened", Value.str "2024-03-15",
            Value.str "H2", Value.str "I1", Value.str "OTHER"⟩] "EBG"
      = [⟨Value.str "EDETAIL_CARENET", Value.str "D1", Value.str "Delivered",
          Value.str "2024-03-15", Value.str "H1", Value.str "I1", Value.str "EBG"⟩]
    ∧ replaceVia CHANNEL_MAPPING (Value.str "ZZZ") = Value.str "ZZZ" := by
  constructor
  · exact (C10_edetail_normalize_spec.1
      [⟨Value.str "CARENET", Value.str "D1", Value.str "Sent", Value.str "2024-03-15",
          Value.str "H1", Value.str "I1", Value.str "EBG"⟩,
        ⟨Value.str "ZZZ", Value.str "D2", Value.str "Opened", Value.str "2024-03-15",
          Value.str "H2", Value.str "I1", Value.str "OTHER"⟩] "EBG" (by decide)).trans
      (by decide)
  · exact C10_edetail_normalize_spec.2.2.1 (Value.str "ZZZ") (by decide)

end MrProject
